import Mathlib

/-!
Verification of the aws_scraper repository's fetch-and-extract pipeline.

The Python sources (aws_scraper.py, aws_test.py, aws_test2_wreviews.py) are
shallowly embedded below.  Text is modelled as `List Char`, raw response
bodies as `List Nat` (byte values), floats produced by `float(...)` as `ℚ`
(all parsed literals are exact decimals), and the on-disk HTML cache as an
association list from file path to bytes.  External library boundaries that
the claims do not depend on are made explicit parameters: the HTTP session
is a function from attempt index to a network event, and lxml's HTML
parsing is a function from bytes to extracted text / node texts.
Everything else (regex scans, url parsing, hashing, retry loops, the
resume-aware scrape loop) is translated directly from the source.
-/

/-! ## Basic character and list-of-char utilities -/

/-- Python's `\s` class for the ASCII range (space, tab, newline, carriage
return, vertical tab, form feed). -/
def isPySpace (c : Char) : Bool :=
  c = ' ' || c = '\t' || c = '\n' || c = '\r' || c = Char.ofNat 11 || c = Char.ofNat 12

/-- Python's `\w` class for the ASCII range: letters, digits, underscore. -/
def isWordChar (c : Char) : Bool :=
  c.isAlphanum || c = '_'

/-- `beginsWith p l` is true when `p` is an initial segment of `l`. -/
def beginsWith : List Char → List Char → Bool
  | [], _ => true
  | _ :: _, [] => false
  | p :: ps, c :: cs => p = c && beginsWith ps cs

/-- Case-insensitive version of `beginsWith` (ASCII lowering). -/
def beginsWithCI : List Char → List Char → Bool
  | [], _ => true
  | _ :: _, [] => false
  | p :: ps, c :: cs => p.toLower = c.toLower && beginsWithCI ps cs

/-- Python's `pat in s` substring test. -/
def containsSub (pat : List Char) : List Char → Bool
  | [] => pat.isEmpty
  | c :: rest => beginsWith pat (c :: rest) || containsSub pat rest

/-- Python's `str.strip()` (whitespace from both ends). -/
def stripWs (l : List Char) : List Char :=
  ((l.dropWhile isPySpace).reverse.dropWhile isPySpace).reverse

/-- Python's `str.strip("/")`. -/
def stripSlashes (l : List Char) : List Char :=
  ((l.dropWhile (· = '/')).reverse.dropWhile (· = '/')).reverse

/-- One pass of `re.sub(r"\s+", " ", text)`: every maximal whitespace run
becomes a single space.  `prevSpace` records whether the previous character
was part of a whitespace run. -/
def normWsGo (prevSpace : Bool) : List Char → List Char
  | [] => []
  | c :: rest =>
      if isPySpace c then
        if prevSpace then normWsGo true rest else ' ' :: normWsGo true rest
      else c :: normWsGo false rest

/-- `re.sub(r"\s+", " ", text)`. -/
def normWs (l : List Char) : List Char := normWsGo false l

/-- `re.sub(r"\s+", " ", text).strip()`, the page-text normalisation used
throughout the sources. -/
def pyNormText (l : List Char) : List Char := stripWs (normWs l)

/-- ASCII lowering of a whole string, Python's `str.lower()` on the texts
the scraper handles. -/
def lowerStr (l : List Char) : List Char := l.map Char.toLower

/-- Numeric value of a digit string. -/
def natOfDigits (l : List Char) : Nat :=
  l.foldl (fun a c => a * 10 + (c.toNat - 48)) 0

/-! ## Python `urllib.parse.urlparse(url).path`

Modelled from the CPython `urlsplit` algorithm: take off a valid scheme
(`alpha (alnum|+|-|.)* :`), then a `//netloc` up to the next `/`, `?` or
`#`, then cut the fragment (first `#`) and the query (first `?`). -/

def isSchemeChar (c : Char) : Bool :=
  c.isAlphanum || c = '+' || c = '-' || c = '.'

def stripScheme (l : List Char) : List Char :=
  let pre := l.takeWhile (· ≠ ':')
  match pre with
  | [] => l
  | c :: cs =>
      if pre.length < l.length ∧ c.isAlpha ∧ cs.all isSchemeChar then
        l.drop (pre.length + 1)
      else l

def stripNetloc : List Char → List Char
  | '/' :: '/' :: rest => rest.dropWhile (fun c => !(c = '/' || c = '?' || c = '#'))
  | l => l

def urlPath (l : List Char) : List Char :=
  ((stripNetloc (stripScheme l)).takeWhile (· ≠ '#')).takeWhile (· ≠ '?')

/-- `prodview_id_from_url` (aws_test2_wreviews.py line 63, aws_test.py
line 47, aws_scraper.py line 127): last path segment when it starts with
`prodview-`. -/
def prodview_id_from_url (url : List Char) : Option (List Char) :=
  let parts := (stripSlashes (urlPath url)).splitOn '/'
  match parts.getLast? with
  | none => none
  | some last => if beginsWith "prodview-".data last then some last else none

/-! ## safe_filename and the SHA-1 url hash -/

/-- Characters kept verbatim by `safe_filename`'s regex class
`[a-zA-Z0-9._-]`. -/
def isSafeChar (c : Char) : Bool :=
  c.isAlphanum || c = '.' || c = '_' || c = '-'

/-- Scan for `re.sub(r"[^a-zA-Z0-9._-]+", "_", s)`: each maximal run of
unsafe characters becomes one underscore.  `prevBad` records whether we are
inside an unsafe run. -/
def safeGo (prevBad : Bool) : List Char → List Char
  | [] => []
  | c :: rest =>
      if isSafeChar c then c :: safeGo false rest
      else if prevBad then safeGo true rest
      else '_' :: safeGo true rest

/-- `safe_filename` (aws_test2_wreviews.py line 59). -/
def safe_filename (s : List Char) : List Char :=
  (safeGo false s).take 120

/-- UTF-8 encoding of one character (`str.encode("utf-8")`). -/
def utf8Char (c : Char) : List Nat :=
  let n := c.toNat
  if n < 128 then [n]
  else if n < 2048 then [192 + n / 64, 128 + n % 64]
  else if n < 65536 then [224 + n / 4096, 128 + n / 64 % 64, 128 + n % 64]
  else [240 + n / 262144, 128 + n / 4096 % 64, 128 + n / 64 % 64, 128 + n % 64]

def utf8Bytes (s : List Char) : List Nat := s.flatMap utf8Char

/-- Truncation to a 32-bit word. -/
def w32 (n : Nat) : Nat := n % 4294967296

/-- Left rotation of a 32-bit word by `s` bits. -/
def rotl32 (s n : Nat) : Nat := w32 (n * 2 ^ s) + n / 2 ^ (32 - s)

/-- Bitwise complement of a 32-bit word. -/
def not32 (n : Nat) : Nat := 4294967295 - n

/-- Big-endian byte rendering of `x` on `n` bytes. -/
def beBytes (n x : Nat) : List Nat :=
  (List.range n).map (fun i => x / 2 ^ (8 * (n - 1 - i)) % 256)

/-- SHA-1 message padding: `0x80`, zeros to 56 mod 64, then the bit length
on eight big-endian bytes. -/
def sha1Pad (msg : List Nat) : List Nat :=
  let z := (119 - msg.length % 64) % 64
  msg ++ [128] ++ List.replicate z 0 ++ beBytes 8 (8 * msg.length)

/-- Four big-endian bytes to one 32-bit word, over a list of bytes. -/
def bytesToWords : List Nat → List Nat
  | a :: b :: c :: d :: rest => (((a * 256 + b) * 256 + c) * 256 + d) :: bytesToWords rest
  | _ => []

/-- SHA-1 message schedule: extend the 16 chunk words to 80. -/
def sha1Extend (w : List Nat) : Nat → List Nat
  | 0 => w
  | k + 1 =>
      let t := ((w.getD (w.length - 3) 0 ^^^ w.getD (w.length - 8) 0) ^^^
                 w.getD (w.length - 14) 0) ^^^ w.getD (w.length - 16) 0
      sha1Extend (w ++ [rotl32 1 t]) k

/-- The SHA-1 round function and constant for round `i`. -/
def sha1F (i b c d : Nat) : Nat :=
  if i < 20 then (b &&& c) ||| (not32 b &&& d)
  else if i < 40 then (b ^^^ c) ^^^ d
  else if i < 60 then ((b &&& c) ||| (b &&& d)) ||| (c &&& d)
  else (b ^^^ c) ^^^ d

def sha1K (i : Nat) : Nat :=
  if i < 20 then 1518500249
  else if i < 40 then 1859775393
  else if i < 60 then 2400959708
  else 3395469782

/-- One SHA-1 chunk: run 80 rounds over state `(a,b,c,d,e)` and add the
result into the running hash. -/
def sha1Chunk (h : List Nat) (chunk : List Nat) : List Nat :=
  let w := sha1Extend (bytesToWords chunk) 64
  let st := (List.range 80).foldl
    (fun (s : Nat × Nat × Nat × Nat × Nat) i =>
      let (a, b, c, d, e) := s
      let t := w32 (rotl32 5 a + sha1F i b c d + e + sha1K i + w.getD i 0)
      (t, a, rotl32 30 b, c, d))
    (h.getD 0 0, h.getD 1 0, h.getD 2 0, h.getD 3 0, h.getD 4 0)
  [w32 (h.getD 0 0 + st.1), w32 (h.getD 1 0 + st.2.1), w32 (h.getD 2 0 + st.2.2.1),
   w32 (h.getD 3 0 + st.2.2.2.1), w32 (h.getD 4 0 + st.2.2.2.2)]

/-- Split a padded message into 64-byte chunks (fuel-driven; the fuel is
always sufficient at `l.length`). -/
def chunks64Go : Nat → List Nat → List (List Nat)
  | 0, _ => []
  | _ + 1, [] => []
  | fuel + 1, l => l.take 64 :: chunks64Go fuel (l.drop 64)

/-- Lower-case hex rendering of `x` on `n` digits. -/
def hexRender (n x : Nat) : List Char :=
  (List.range n).map (fun i =>
    let d := x / 16 ^ (n - 1 - i) % 16
    if d < 10 then Char.ofNat (48 + d) else Char.ofNat (87 + d))

/-- `hashlib.sha1(bytes).hexdigest()`. -/
def sha1Hex (msg : List Nat) : List Char :=
  let padded := sha1Pad msg
  let h := (chunks64Go padded.length padded).foldl sha1Chunk
    [1732584193, 4023233417, 2562383102, 271733878, 3285377520]
  h.flatMap (hexRender 8)

/-! ## Cache paths -/

/-- The cache-key name: prodview id when derivable, else the first 16 hex
characters of the SHA-1 of the url (both cache_path variants). -/
def cacheNameOf (url : List Char) : List Char :=
  match prodview_id_from_url url with
  | some pid => pid
  | none => (sha1Hex (utf8Bytes url)).take 16

/-- `cache_path` of aws_test2_wreviews.py (line 75):
`CACHE_DIR / f"{kind}__{safe_filename(name)}.html"`. -/
def cache_path_w (kind url : List Char) : List Char :=
  "data/cache_html/".data ++ kind ++ "__".data ++ safe_filename (cacheNameOf url) ++ ".html".data

/-- `cache_path` of aws_test.py (line 61): no `safe_filename` pass. -/
def cache_path_t (kind url : List Char) : List Char :=
  "data/cache_html/".data ++ kind ++ "__".data ++ cacheNameOf url ++ ".html".data

/-! ## The fetch layer

An HTTP session is modelled as a function from attempt index to the event
the `session.get` call produces: a status code with a response body, or a
transport exception.  Sleeping is observable through the list of
`polite_sleep` multipliers; the wall-clock durations (base delay plus
random jitter) are irrelevant to every claim. -/

inductive NetEvent where
  | status (code : Nat) (body : List Nat)
  | netError
deriving DecidableEq

/-- The on-disk cache: an association list from file path to bytes, most
recent write first. -/
abbrev CacheT := List (List Char × List Nat)

def cacheGet (cache : CacheT) (key : List Char) : Option (List Nat) :=
  match cache with
  | [] => none
  | (k, v) :: rest => if k = key then some v else cacheGet rest key

/-- Observable outcome of one fetch call: the returned value, the cache
afterwards, how many `session.get` calls were made, and the multipliers
passed to `polite_sleep` in order. -/
structure FetchOut where
  result : Option (List Nat)
  cache : CacheT
  netCalls : Nat
  sleepMults : List Nat
deriving DecidableEq

/-- The transient status tuple of aws_test2_wreviews.py line 110 and
aws_scraper.py line 58. -/
def transientW : List Nat := [429, 500, 502, 503, 504]

/-- The transient status tuple of aws_test.py line 93 (no 504). -/
def transientT : List Nat := [429, 503, 502, 500]

/-- The retry loop shared by the three fetchers.  `nfCheck` is the
explicit `status == 404 -> return None` test (present in
aws_test2_wreviews.py and aws_scraper.py, absent in aws_test.py);
`writeKey` is the cache path written on success (`none` when caching is
off or the variant has no cache); `i` is the attempt index into `resp`;
`fuel` the remaining attempts; `backoff` the current multiplier.  A status
outside the transient tuple that is a 4xx/5xx raises in
`r.raise_for_status()` and is caught by the blanket `except`, which sleeps
with the current multiplier, doubles it and retries — exactly like a
transient status or a transport error. -/
def fetchAttempts (resp : Nat → NetEvent) (transient : List Nat) (nfCheck : Bool)
    (writeKey : Option (List Char)) (cache : CacheT) :
    Nat → Nat → Nat → FetchOut
  | _, 0, _ => ⟨none, cache, 0, []⟩
  | i, fuel + 1, backoff =>
      match resp i with
      | .netError =>
          let r := fetchAttempts resp transient nfCheck writeKey cache (i + 1) fuel (backoff * 2)
          ⟨r.result, r.cache, r.netCalls + 1, backoff :: r.sleepMults⟩
      | .status c body =>
          if nfCheck ∧ c = 404 then ⟨none, cache, 1, []⟩
          else if c ∈ transient then
            let r := fetchAttempts resp transient nfCheck writeKey cache (i + 1) fuel (backoff * 2)
            ⟨r.result, r.cache, r.netCalls + 1, backoff :: r.sleepMults⟩
          else if 400 ≤ c ∧ c < 600 then
            let r := fetchAttempts resp transient nfCheck writeKey cache (i + 1) fuel (backoff * 2)
            ⟨r.result, r.cache, r.netCalls + 1, backoff :: r.sleepMults⟩
          else
            ⟨some body,
             (match writeKey with | some k => (k, body) :: cache | none => cache),
             1, [1]⟩

/-- `fetch_url` of aws_test2_wreviews.py (line 87): cache keyed by
`cache_path`, MAX_RETRIES = 5, initial backoff 2.0, 404 is terminal. -/
def fetch_url_w (resp : Nat → NetEvent) (cache : CacheT) (kind url : List Char)
    (useCache : Bool) : FetchOut :=
  let key := cache_path_w kind url
  if useCache then
    match cacheGet cache key with
    | some b => ⟨some b, cache, 0, []⟩
    | none => fetchAttempts resp transientW true (some key) cache 0 5 2
  else fetchAttempts resp transientW true none cache 0 5 2

/-- `fetch_url` of aws_test.py (line 75): cache keyed by its `cache_path`,
MAX_RETRIES = 4, no explicit 404 test (a 404 raises and is retried through
the `except` branch), transient tuple without 504. -/
def fetch_url_t (resp : Nat → NetEvent) (cache : CacheT) (kind url : List Char)
    (useCache : Bool) : FetchOut :=
  let key := cache_path_t kind url
  if useCache then
    match cacheGet cache key with
    | some b => ⟨some b, cache, 0, []⟩
    | none => fetchAttempts resp transientT false (some key) cache 0 4 2
  else fetchAttempts resp transientT false none cache 0 4 2

/-- `fetch` of aws_scraper.py (line 44): no cache, MAX_RETRIES = 3, 404 is
terminal. -/
def fetch_s (resp : Nat → NetEvent) : FetchOut :=
  fetchAttempts resp transientW true none [] 0 3 2

/-! ## URL classification and slug extraction (aws_scraper.py) -/

/-- `classify_url` (aws_scraper.py line 79). -/
def classify_url (url : List Char) : String :=
  if containsSub "/marketplace/pp/".data url then "product"
  else if containsSub "/marketplace/seller-profile/".data url then "seller"
  else if containsSub "/marketplace/b/".data url then "category"
  else "other"

/-- A character matched by the regex class `[^/?]`. -/
def segChar (c : Char) : Bool := !(c = '/' || c = '?')

/-- `re.search(pat ++ "([^/?]+)", url)` for a literal `pat`: the leftmost
position where `pat` is followed by at least one `[^/?]` character wins,
and the capture is the maximal such run. -/
def reSearchSeg (pat : List Char) : List Char → Option (List Char)
  | [] => none
  | c :: rest =>
      if beginsWith pat (c :: rest) then
        let seg := ((c :: rest).drop pat.length).takeWhile segChar
        if seg.isEmpty then reSearchSeg pat rest else some seg
      else reSearchSeg pat rest

/-- `extract_slug` (aws_scraper.py line 89). -/
def extract_slug (url : List Char) (ty : String) : Option (List Char) :=
  if ty = "product" then reSearchSeg "/marketplace/pp/".data url
  else if ty = "seller" then reSearchSeg "/marketplace/seller-profile/".data url
  else if ty = "category" then reSearchSeg "/marketplace/b/".data url
  else none

/-! ## Pricing classification -/

/-- `classify_pricing` of aws_scraper.py (line 176). -/
def classify_pricing_s (pageText : List Char) : String :=
  let t := lowerStr pageText
  if containsSub "free trial".data t then "free_trial"
  else if containsSub "bring your own license".data t || containsSub "byol".data t then "byol"
  else if containsSub "usage-based".data t || containsSub "usage based".data t then "usage_based"
  else if containsSub "cost/hour".data t || containsSub "hourly".data t then "hourly"
  else if containsSub "cost/month".data t then "monthly"
  else if containsSub "12-month contract".data t || containsSub "12 month contract".data t then "contract"
  else if containsSub "contact seller".data t ||
          (containsSub "contact".data t && containsSub "pricing".data t) then "contact_seller"
  else "unknown"

/-- `classify_pricing` of aws_test2_wreviews.py (line 209): same cascade
plus an `annual` rule between `contract` and `contact_seller`. -/
def classify_pricing_w (pageText : List Char) : String :=
  let t := lowerStr pageText
  if containsSub "free trial".data t then "free_trial"
  else if containsSub "bring your own license".data t || containsSub "byol".data t then "byol"
  else if containsSub "usage-based".data t || containsSub "usage based".data t then "usage_based"
  else if containsSub "cost/hour".data t || containsSub "hourly".data t then "hourly"
  else if containsSub "cost/month".data t then "monthly"
  else if containsSub "12-month contract".data t || containsSub "12 month contract".data t then "contract"
  else if containsSub "annual".data t then "annual"
  else if containsSub "contact seller".data t ||
          (containsSub "contact".data t && containsSub "pricing".data t) then "contact_seller"
  else "unknown"

/-- Scan for `re.search(r"\bfree\b", t)`: an occurrence of `w` with a
non-word character (or an end of string) on each side.  `prev` is the
character before the current position. -/
def hasWordGo (w : List Char) : Option Char → List Char → Bool
  | _, [] => false
  | prev, c :: rest =>
      ((match prev with | none => true | some p => !isWordChar p) &&
        beginsWith w (c :: rest) &&
        (match (c :: rest).drop w.length with | [] => true | d :: _ => !isWordChar d)) ||
      hasWordGo w (some c) rest

def hasWord (w t : List Char) : Bool := hasWordGo w none t

/-- `classify_pricing` of aws_test.py (line 234): adds a weak-signal
`free` rule, an `annual` rule, and a duration-phrase `contract` rule. -/
def classify_pricing_t (pageText : List Char) : String :=
  let t := lowerStr pageText
  if containsSub "free trial".data t then "free_trial"
  else if hasWord "free".data t && !containsSub "$".data t && !containsSub "cost/".data t then "free"
  else if containsSub "bring your own license".data t || containsSub "byol".data t then "byol"
  else if containsSub "usage-based".data t || containsSub "usage based".data t then "usage_based"
  else if containsSub "cost/hour".data t || containsSub "hourly".data t then "hourly"
  else if containsSub "cost/month".data t then "monthly"
  else if containsSub "cost/12 months".data t || containsSub "cost/12-month".data t ||
          containsSub "12-month contract".data t then "contract"
  else if containsSub "annual".data t then "annual"
  else if containsSub "contact".data t && containsSub "pricing".data t then "contact_seller"
  else if containsSub "pricing is based on the duration and terms of your contract".data t then "contract"
  else "unknown"

/-- The pricing-type vocabulary of the specification. -/
def pricingVocab : List String :=
  ["free", "free_trial", "byol", "usage_based", "hourly", "monthly",
   "annual", "contract", "contact_seller", "unknown"]

/-- Disjunction of the phrase conditions of `classify_pricing_s`, in the
same order; when it is false the cascade falls through to `unknown`. -/
def anyPricingPhrase_s (pageText : List Char) : Bool :=
  let t := lowerStr pageText
  containsSub "free trial".data t ||
  (containsSub "bring your own license".data t || containsSub "byol".data t) ||
  (containsSub "usage-based".data t || containsSub "usage based".data t) ||
  (containsSub "cost/hour".data t || containsSub "hourly".data t) ||
  containsSub "cost/month".data t ||
  (containsSub "12-month contract".data t || containsSub "12 month contract".data t) ||
  (containsSub "contact seller".data t ||
    (containsSub "contact".data t && containsSub "pricing".data t))

/-- Disjunction of the phrase conditions of `classify_pricing_t`. -/
def anyPricingPhrase_t (pageText : List Char) : Bool :=
  let t := lowerStr pageText
  containsSub "free trial".data t ||
  (hasWord "free".data t && !containsSub "$".data t && !containsSub "cost/".data t) ||
  (containsSub "bring your own license".data t || containsSub "byol".data t) ||
  (containsSub "usage-based".data t || containsSub "usage based".data t) ||
  (containsSub "cost/hour".data t || containsSub "hourly".data t) ||
  containsSub "cost/month".data t ||
  (containsSub "cost/12 months".data t || containsSub "cost/12-month".data t ||
    containsSub "12-month contract".data t) ||
  containsSub "annual".data t ||
  (containsSub "contact".data t && containsSub "pricing".data t) ||
  containsSub "pricing is based on the duration and terms of your contract".data t

/-! ## Contract-term extraction

`re.findall(r"\b(\d+)\s*-\s*month contract\b", text, re.IGNORECASE)` and
the whitespace fallback `\b(\d+)\s*month contract\b`.  The quantifiers
never need backtracking on these patterns (after a maximal digit run the
next character is not a digit, so a shorter run cannot satisfy `\s*`
either, and likewise for the space runs), so a greedy scan is exact. -/

/-- True when the next character (if any) is not a word character: the
trailing `\b` after `contract`. -/
def wordBoundaryNext : List Char → Bool
  | [] => true
  | c :: _ => !isWordChar c

/-- Try the month-contract pattern at the current position: maximal digit
run, `\s*` (`-` `\s*` when `hy`), then `month contract` case-insensitively
and a trailing `\b`.  Returns the captured digits and the remainder after
the match. -/
def mcMatch (hy : Bool) (l : List Char) : Option (List Char × List Char) :=
  let ds := l.takeWhile Char.isDigit
  if ds.isEmpty then none
  else
    let r1 := l.dropWhile Char.isDigit
    let r2 := r1.dropWhile isPySpace
    let r3? : Option (List Char) :=
      if hy then
        match r2 with
        | '-' :: t => some (t.dropWhile isPySpace)
        | _ => none
      else some r2
    match r3? with
    | none => none
    | some r3 =>
        if beginsWithCI "month contract".data r3 && wordBoundaryNext (r3.drop 14) then
          some (ds, r3.drop 14)
        else none

/-- Fuel-driven findall scan.  A match may start wherever the previous
character is not a word character (the leading `\b`; digits are word
characters); on a match the scan resumes after the match, otherwise one
character further.  Each step consumes at least one character, so fuel
equal to the text length is always sufficient. -/
def mcFindGo (hy : Bool) : Nat → Option Char → List Char → List (List Char)
  | 0, _, _ => []
  | _ + 1, _, [] => []
  | fuel + 1, prev, c :: rest =>
      if (match prev with | none => true | some p => !isWordChar p) && c.isDigit then
        match mcMatch hy (c :: rest) with
        | some (ds, rem) => ds :: mcFindGo hy fuel (some 't') rem
        | none => mcFindGo hy fuel (some c) rest
      else mcFindGo hy fuel (some c) rest

def findallMonthContract (hy : Bool) (t : List Char) : List (List Char) :=
  mcFindGo hy t.length none t

/-- Python string `<`: lexicographic by code point. -/
def lexLt : List Char → List Char → Bool
  | _, [] => false
  | [], _ :: _ => true
  | a :: as, b :: bs => a < b || (a = b && lexLt as bs)

def insLex (x : List Char) : List (List Char) → List (List Char)
  | [] => [x]
  | y :: ys => if lexLt x y then x :: y :: ys else y :: insLex x ys

def sortLex : List (List Char) → List (List Char)
  | [] => []
  | x :: xs => insLex x (sortLex xs)

/-- Distinct elements of a list (set semantics; order is irrelevant since
the result is always sorted afterwards). -/
def dedupStrs : List (List Char) → List (List Char)
  | [] => []
  | x :: xs => if x ∈ xs then dedupStrs xs else x :: dedupStrs xs

/-- Python `sorted(set(xs))` on captured digit strings: the duplicate-free
list in lexicographic string order. -/
def sortedSetStrs (xs : List (List Char)) : List (List Char) :=
  sortLex (dedupStrs xs)

/-- The contract-terms field (aws_scraper.py lines 199-202,
aws_test2_wreviews.py lines 242-247): hyphen pattern first, whitespace
pattern only when the first finds nothing, join as `<N>-month` with
commas. -/
def contractTermsOf (text : List Char) : Option (List Char) :=
  let t1 := sortedSetStrs (findallMonthContract true text)
  let terms := if t1.isEmpty then sortedSetStrs (findallMonthContract false text) else t1
  if terms.isEmpty then none
  else some (List.intercalate ",".data (terms.map (fun x => x ++ "-month".data)))

/-! ## Dollar-amount extraction

`re.findall(r"\$\s*([0-9]{1,3}(?:,[0-9]{3})*(?:\.[0-9]{2})?)", text)`.
After the literal `$`, a maximal space run must be followed by a digit
(shorter runs leave a space where a digit is required, so greediness is
exact); the digit group takes at most three of the maximal digit run; the
comma groups and the cents are optional, so the greedy choices always
stand. -/

/-- Consume `(?:,[0-9]{3})*` greedily: returns the consumed characters and
the remainder. -/
def commaGroups : List Char → List Char × List Char
  | ',' :: a :: b :: c :: rest =>
      if a.isDigit && b.isDigit && c.isDigit then
        let p := commaGroups rest
        (',' :: a :: b :: c :: p.1, p.2)
      else ([], ',' :: a :: b :: c :: rest)
  | l => ([], l)

/-- Consume `(?:\.[0-9]{2})?` greedily. -/
def centsOpt : List Char → List Char × List Char
  | '.' :: a :: b :: rest =>
      if a.isDigit && b.isDigit then (['.', a, b], rest)
      else ([], '.' :: a :: b :: rest)
  | l => ([], l)

/-- Try the dollar-amount pattern right after a `$`: returns the captured
group and the remainder after the match. -/
def priceMatch (l : List Char) : Option (List Char × List Char) :=
  let l1 := l.dropWhile isPySpace
  let run := l1.takeWhile Char.isDigit
  if run.isEmpty then none
  else
    let d := run.take 3
    let r1 := l1.drop d.length
    let g := commaGroups r1
    let f := centsOpt g.2
    some (d ++ g.1 ++ f.1, f.2)

/-- Fuel-driven findall over the text: try the pattern at each `$`. -/
def priceScanGo : Nat → List Char → List (List Char)
  | 0, _ => []
  | _ + 1, [] => []
  | fuel + 1, c :: rest =>
      if c = '$' then
        match priceMatch rest with
        | some (tok, rem) => tok :: priceScanGo fuel rem
        | none => priceScanGo fuel rest
      else priceScanGo fuel rest

def priceScan (t : List Char) : List (List Char) :=
  priceScanGo t.length t

/-- `float(p.replace(",", ""))` on a captured dollar amount, as an exact
rational; `none` models the `except: pass` (never reached on captures of
the price pattern). -/
def parseFloatQ (s : List Char) : Option ℚ :=
  let t := s.filter (· ≠ ',')
  let ip := t.takeWhile Char.isDigit
  match t.drop ip.length with
  | [] => if ip.isEmpty then none else some (natOfDigits ip)
  | '.' :: fp =>
      if ip.isEmpty && fp.isEmpty then none
      else if fp.all Char.isDigit then
        some ((natOfDigits ip : ℚ) + (natOfDigits fp : ℚ) / (10 : ℚ) ^ fp.length)
      else none
  | _ => none

/-- The parsed dollar values of a text, in match order. -/
def priceVals (t : List Char) : List ℚ :=
  (priceScan t).filterMap parseFloatQ

/-- Result record of `extract_pricing` / `parse_pricing_details`. -/
structure PricingOut where
  pricing_type : String
  contract_terms : Option (List Char)
  price_visible : Nat
  price_min_usd : Option ℚ
  price_max_usd : Option ℚ
deriving DecidableEq

/-- `extract_pricing` (aws_scraper.py line 195). -/
def extract_pricing (text : List Char) : PricingOut :=
  let vals := priceVals text
  { pricing_type := classify_pricing_s text
    contract_terms := contractTermsOf text
    price_visible := if vals.isEmpty then 0 else 1
    price_min_usd := match vals with | [] => none | v :: r => some (r.foldl min v)
    price_max_usd := match vals with | [] => none | v :: r => some (r.foldl max v) }

/-- `parse_pricing_details` (aws_test2_wreviews.py line 232): identical
except for the pricing-type cascade. -/
def parse_pricing_details (text : List Char) : PricingOut :=
  let vals := priceVals text
  { pricing_type := classify_pricing_w text
    contract_terms := contractTermsOf text
    price_visible := if vals.isEmpty then 0 else 1
    price_min_usd := match vals with | [] => none | v :: r => some (r.foldl min v)
    price_max_usd := match vals with | [] => none | v :: r => some (r.foldl max v) }

/-! ## Review-count searches

`re.search(r"(\d[\d,]*)\s+<label>\b", t, re.IGNORECASE)`: leftmost match,
capture the digit/comma run.  The greedy runs are exact for the same
reason as above (a digit or comma can never satisfy `\s+`, and a space
never matches the label's first letter). -/

/-- Try the count pattern at the current position: a digit, then the
maximal digit/comma run, at least one space, the label case-insensitively,
and a trailing `\b`. -/
def countMatchAt (label : List Char) (l : List Char) : Option (List Char) :=
  match l with
  | [] => none
  | c :: rest =>
      if c.isDigit then
        let tok := c :: rest.takeWhile (fun d => d.isDigit || d = ',')
        let after := rest.dropWhile (fun d => d.isDigit || d = ',')
        match after with
        | a :: _ =>
            if isPySpace a then
              let s1 := after.dropWhile isPySpace
              if beginsWithCI label s1 && wordBoundaryNext (s1.drop label.length) then
                some tok
              else none
            else none
        | [] => none
      else none

/-- `re.search` scan for the count pattern: first position where it
matches wins. -/
def searchCount (label : List Char) : List Char → Option (List Char)
  | [] => none
  | c :: rest =>
      match countMatchAt label (c :: rest) with
      | some tok => some tok
      | none => searchCount label rest

/-- `to_int` (aws_test2_wreviews.py line 287, aws_scraper.py line 257):
`int(s.replace(",", "").strip())` under `try`. -/
def toIntPy (s : List Char) : Option Nat :=
  let t := stripWs (s.filter (· ≠ ','))
  if !t.isEmpty && t.all Char.isDigit then some (natOfDigits t) else none

/-- Scan for `re.search(r"\b([0-5]\.\d)\s+out of 5\b", t, re.IGNORECASE)`:
returns the two digits of the capture. -/
def searchAvgGo : Option Char → List Char → Option (Char × Char)
  | _, [] => none
  | prev, c :: rest =>
      (if (match prev with | none => true | some p => !isWordChar p) &&
          ('0' ≤ c && c ≤ '5') then
        match rest with
        | '.' :: d :: tail =>
            if d.isDigit then
              match tail with
              | a :: _ =>
                  if isPySpace a then
                    let s1 := tail.dropWhile isPySpace
                    if beginsWithCI "out of 5".data s1 && wordBoundaryNext (s1.drop 8) then
                      some (c, d)
                    else none
                  else none
              | [] => none
            else none
        | _ => none
      else none).orElse (fun _ => searchAvgGo (some c) rest)

def searchAvg (t : List Char) : Option (Char × Char) := searchAvgGo none t

/-- `float("<c>.<d>")` for the captured average rating. -/
def avgToQ (p : Char × Char) : ℚ :=
  (p.1.toNat - 48 : ℕ) + ((p.2.toNat - 48 : ℕ) : ℚ) / 10

/-- The review-field record shared by both reviews extractors (field order
of the aws_test2_wreviews.py dict). -/
structure ReviewsInfo where
  reviews_page_exists : Nat
  reviews_supported : Option Nat
  avg_rating : Option ℚ
  ratings_count : Option Nat
  aws_reviews_count : Option Nat
  external_reviews_count : Option Nat
deriving DecidableEq

/-- The terminal no-page state `{pageExists:0, supported:0, nulls}`. -/
def reviewsNoPage : ReviewsInfo := ⟨0, some 0, none, none, none, none⟩

/-- The ambiguous short-body state `{pageExists:1, supported:null, nulls}`. -/
def reviewsShortBody : ReviewsInfo := ⟨1, none, none, none, none, none⟩

/-- The unsupported state `{pageExists:1, supported:0, nulls}`. -/
def reviewsNotSupported : ReviewsInfo := ⟨1, some 0, none, none, none, none⟩

/-- The count extraction shared verbatim by `parse_reviews_list_page`
(aws_test2_wreviews.py lines 293-316) and
`extract_reviews_from_reviews_page` (aws_scraper.py lines 263-293), on the
whitespace-normalised text. -/
def reviewCountsOf (t : List Char) : ReviewsInfo :=
  { reviews_page_exists := 1
    reviews_supported := some 1
    avg_rating := (searchAvg t).map avgToQ
    ratings_count := (searchCount "ratings".data t).bind toIntPy
    aws_reviews_count := (searchCount "aws reviews".data t).bind toIntPy
    external_reviews_count := (searchCount "external reviews".data t).bind toIntPy }

/-- `parse_reviews_list_page` (aws_test2_wreviews.py line 269): normalise
whitespace, test the not-supported marker, else extract the counts. -/
def parse_reviews_list_page (text : List Char) : ReviewsInfo :=
  let t := pyNormText text
  let low := lowerStr t
  if containsSub "reviews are not supported".data low then reviewsNotSupported
  else reviewCountsOf t

/-- The reviews-list url template (aws_test2_wreviews.py line 320,
aws_scraper.py line 230). -/
def reviewsUrl (pid : List Char) : List Char :=
  "https://aws.amazon.com/marketplace/reviews/reviews-list/".data ++ pid

/-- Observable outcome of `fetch_reviews_info`: the parsed fields, the
cache afterwards, the network calls made, and the url passed to
`fetch_url`. -/
structure ReviewsFetchOut where
  info : ReviewsInfo
  cache : CacheT
  netCalls : Nat
  url : List Char
deriving DecidableEq

/-- `fetch_reviews_info` (aws_test2_wreviews.py line 319).  `web` gives
the session's responses per url and attempt; `toText` is lxml's
`html.fromstring(content).text_content()`. -/
def fetch_reviews_info (web : List Char → Nat → NetEvent) (toText : List Nat → List Char)
    (cache : CacheT) (pid : List Char) (useCache : Bool) : ReviewsFetchOut :=
  let u := reviewsUrl pid
  let f := fetch_url_w (web u) cache "reviews".data u useCache
  match f.result with
  | none => ⟨reviewsNoPage, f.cache, f.netCalls, u⟩
  | some body =>
      if body.isEmpty then ⟨reviewsNoPage, f.cache, f.netCalls, u⟩
      else
        let text := toText body
        if (stripWs text).length < 50 then ⟨reviewsShortBody, f.cache, f.netCalls, u⟩
        else ⟨parse_reviews_list_page text, f.cache, f.netCalls, u⟩

/-- `extract_reviews_from_reviews_page` (aws_scraper.py line 229): the
scraper variant has no cache and no short-body state — any non-empty
fetched body goes straight to the marker test and the count extraction. -/
def extract_reviews_s (web : List Char → Nat → NetEvent) (toText : List Nat → List Char)
    (pid : List Char) : ReviewsInfo × Nat :=
  let u := reviewsUrl pid
  let f := fetch_s (web u)
  match f.result with
  | none => (reviewsNoPage, f.netCalls)
  | some body =>
      if body.isEmpty then (reviewsNoPage, f.netCalls)
      else
        let t := pyNormText (toText body)
        let low := lowerStr t
        if containsSub "reviews are not supported".data low then
          (reviewsNotSupported, f.netCalls)
        else (reviewCountsOf t, f.netCalls)

/-! ## Product-page extractors (aws_test2_wreviews.py lines 167-203)

The lxml tree is abstracted by three oracles: the text of the first
`//title/text()` node, the texts of the seller-profile anchors, and the
texts of the category anchors. -/

/-- Everything after the first `sep` (Python `s.split(sep, 1)[1]` when
`sep` occurs). -/
def afterFirst (sep : Char) (l : List Char) : List Char :=
  (l.dropWhile (· ≠ sep)).drop 1

/-- `extract_product_name`: strip the title; drop a leading
`aws marketplace:` brand label case-insensitively. -/
def extract_product_name (title? : Option (List Char)) : Option (List Char) :=
  match title? with
  | none => none
  | some raw =>
      let t := stripWs raw
      if beginsWith "aws marketplace:".data (lowerStr t) then
        some (stripWs (afterFirst ':' t))
      else some t

/-- The anchor-text cleanup `[s.strip() for s in xs if s and s.strip()]`. -/
def cleanTexts (xs : List (List Char)) : List (List Char) :=
  xs.filterMap (fun s => let t := stripWs s; if t.isEmpty then none else some t)

/-- `extract_seller_name`: first clean seller-anchor text. -/
def extract_seller_name (sellerTexts : List (List Char)) : Option (List Char) :=
  (cleanTexts sellerTexts).head?

/-- `extract_categories`: first clean category text and the `|`-join. -/
def extract_categories (catTexts : List (List Char)) :
    Option (List Char) × Option (List Char) :=
  let cats := cleanTexts catTexts
  (cats.head?, if cats.isEmpty then none else some (List.intercalate "|".data cats))

/-- `detect_delivery_method` (aws_test2_wreviews.py line 191,
aws_scraper.py line 158). -/
def detect_delivery_method (pageText : List Char) : Option (List Char) :=
  let t := lowerStr pageText
  if containsSub "software as a service".data t || containsSub "(saas)".data t then
    some "SaaS".data
  else if containsSub "amazon machine image".data t || containsSub "(ami)".data t then
    some "AMI".data
  else if containsSub "container".data t &&
          (containsSub "kubernetes".data t || containsSub "ecs".data t ||
            containsSub "ecr".data t) then
    some "Container".data
  else if containsSub "professional services".data t then
    some "Professional Services".data
  else if containsSub "data product".data t || containsSub "data exchange".data t ||
          containsSub "data sets".data t then
    some "Data".data
  else none

/-! ## One enriched product row and the resumable scrape loop
(aws_test2_wreviews.py lines 355-453) -/

/-- One row of the enriched-products table. -/
structure Row where
  url : List Char
  prodview_id : List Char
  product_name : Option (List Char)
  seller_name : Option (List Char)
  category_primary : Option (List Char)
  categories_all : Option (List Char)
  delivery_method : Option (List Char)
  pricing : PricingOut
  reviews : ReviewsInfo
deriving DecidableEq

/-- Observable outcome of `fetch_product_info`. -/
structure ProductFetchOut where
  row : Option Row
  cache : CacheT
  netCalls : Nat
deriving DecidableEq

/-- `fetch_product_info` (aws_test2_wreviews.py line 355).  The lxml
boundary: `toText` is `tree.text_content()` on raw bytes, `titleO`,
`sellerO`, `catsO` the three xpath node-text extractions. -/
def fetch_product_info (web : List Char → Nat → NetEvent) (toText : List Nat → List Char)
    (titleO : List Nat → Option (List Char)) (sellerO catsO : List Nat → List (List Char))
    (cache : CacheT) (url : List Char) (useCache : Bool) : ProductFetchOut :=
  let f := fetch_url_w (web url) cache "product".data url useCache
  match f.result with
  | none => ⟨none, f.cache, f.netCalls⟩
  | some body =>
      if body.isEmpty then ⟨none, f.cache, f.netCalls⟩
      else
        let text := pyNormText (toText body)
        match prodview_id_from_url url with
        | none => ⟨none, f.cache, f.netCalls⟩
        | some pid =>
            let cats := extract_categories (catsO body)
            let rv := fetch_reviews_info web toText f.cache pid useCache
            ⟨some { url := url
                    prodview_id := pid
                    product_name := extract_product_name (titleO body)
                    seller_name := extract_seller_name (sellerO body)
                    category_primary := cats.1
                    categories_all := cats.2
                    delivery_method := detect_delivery_method text
                    pricing := parse_pricing_details text
                    reviews := rv.info },
             rv.cache, f.netCalls + rv.netCalls⟩

/-- State threaded through the scrape loop: the accumulated rows (the
continuously re-written output table), the cache, and the network-call
counter for the run. -/
structure PipeState where
  results : List Row
  cache : CacheT
  netCalls : Nat
deriving DecidableEq

/-- Process one url that was not skipped: fetch, and append the row when
one is produced. -/
def processUrl (web : List Char → Nat → NetEvent) (toText : List Nat → List Char)
    (titleO : List Nat → Option (List Char)) (sellerO catsO : List Nat → List (List Char))
    (st : PipeState) (url : List Char) : PipeState :=
  let r := fetch_product_info web toText titleO sellerO catsO st.cache url true
  { results := st.results ++ (match r.row with | some row => [row] | none => [])
    cache := r.cache
    netCalls := st.netCalls + r.netCalls }

/-- One iteration of the scrape loop (aws_test2_wreviews.py lines
435-446): skip without any fetch when the url's prodview id is already
among the loaded identifiers. -/
def scrapeStep (web : List Char → Nat → NetEvent) (toText : List Nat → List Char)
    (titleO : List Nat → Option (List Char)) (sellerO catsO : List Nat → List (List Char))
    (done : List (List Char)) (st : PipeState) (url : List Char) : PipeState :=
  match prodview_id_from_url url with
  | some pid =>
      if pid ∈ done then st
      else processUrl web toText titleO sellerO catsO st url
  | none => processUrl web toText titleO sellerO catsO st url

/-- The scrape loop over the sampled product urls. -/
def runScrape (web : List Char → Nat → NetEvent) (toText : List Nat → List Char)
    (titleO : List Nat → Option (List Char)) (sellerO catsO : List Nat → List (List Char))
    (done : List (List Char)) (st : PipeState) (urls : List (List Char)) : PipeState :=
  urls.foldl (scrapeStep web toText titleO sellerO catsO done) st

/-- The resume set loaded from a prior output table: its product
identifiers (aws_test2_wreviews.py lines 424-430). -/
def doneIdsOf (rows : List Row) : List (List Char) :=
  rows.map (·.prodview_id)

/-- One row of aws_scraper.py's output table: unlike the wreviews
variant, `prodview_id` may be null — the scraper main emits a row even
when the url carries no prodview id. -/
structure ScraperRow where
  url : List Char
  prodview_id : Option (List Char)
  product_name : Option (List Char)
  seller_name : Option (List Char)
  category_primary : Option (List Char)
  categories_all : Option (List Char)
  delivery_method : Option (List Char)
  pricing : PricingOut
  reviews : ReviewsInfo
deriving DecidableEq

/-- One iteration of aws_scraper.py's main loop (lines 312-354): fetch
the product page; on no data, skip the url; otherwise extract the
fields, fetch the reviews page when a prodview id is present — else use
the constant no-page dict of lines 333-340 — and emit the row.  Returns
the row (when any) and the network calls made. -/
def scraper_process_url (web : List Char → Nat → NetEvent) (toText : List Nat → List Char)
    (titleO : List Nat → Option (List Char)) (sellerO catsO : List Nat → List (List Char))
    (url : List Char) : Option ScraperRow × Nat :=
  let f := fetch_s (web url)
  match f.result with
  | none => (none, f.netCalls)
  | some body =>
      if body.isEmpty then (none, f.netCalls)
      else
        let text := pyNormText (toText body)
        let cats := extract_categories (catsO body)
        let rv : ReviewsInfo × Nat :=
          match prodview_id_from_url url with
          | some pid => extract_reviews_s web toText pid
          | none => (reviewsNoPage, 0)
        (some { url := url
                prodview_id := prodview_id_from_url url
                product_name := extract_product_name (titleO body)
                seller_name := extract_seller_name (sellerO body)
                category_primary := cats.1
                categories_all := cats.2
                delivery_method := detect_delivery_method text
                pricing := extract_pricing text
                reviews := rv.1 },
         f.netCalls + rv.2)

/-! ## Auxiliary predicates used in the claim statements -/

/-- The event is a status from the given transient tuple. -/
def transientEvent (tl : List Nat) : NetEvent → Bool
  | .status c _ => decide (c ∈ tl)
  | .netError => false

/-- The event lands in a retrying branch of the loop body: a transport
error, a transient status, or a 4xx/5xx raised by `raise_for_status` —
except a 404 when the variant checks for it. -/
def retryingEvent (tl : List Nat) (nf : Bool) : NetEvent → Bool
  | .netError => true
  | .status c _ =>
      !(nf && decide (c = 404)) &&
        (decide (c ∈ tl) || (decide (400 ≤ c) && decide (c < 600)))

/-- No dollar sign anywhere in the text. -/
def noDollar (l : List Char) : Bool := l.all (· ≠ '$')

/-- The head of `l` (if any) ends a `[^/?]+` capture. -/
def headSegBad : List Char → Bool
  | [] => true
  | c :: _ => !segChar c

/-! # Theorems -/

/-! ## Helper lemmas about the retry loop -/

theorem fetchAttempts_retry_step (resp : Nat → NetEvent) (tl : List Nat) (nf : Bool)
    (wk : Option (List Char)) (cache : CacheT) (i fuel backoff : Nat)
    (h : retryingEvent tl nf (resp i) = true) :
    fetchAttempts resp tl nf wk cache i (fuel + 1) backoff =
      ⟨(fetchAttempts resp tl nf wk cache (i + 1) fuel (backoff * 2)).result,
       (fetchAttempts resp tl nf wk cache (i + 1) fuel (backoff * 2)).cache,
       (fetchAttempts resp tl nf wk cache (i + 1) fuel (backoff * 2)).netCalls + 1,
       backoff :: (fetchAttempts resp tl nf wk cache (i + 1) fuel (backoff * 2)).sleepMults⟩ := by
  cases hr : resp i with
  | netError => simp [fetchAttempts, hr]
  | status c b =>
      rw [hr] at h
      simp only [retryingEvent, Bool.and_eq_true, Bool.not_eq_true', Bool.and_eq_false_iff,
        Bool.or_eq_true, decide_eq_true_eq, decide_eq_false_iff_not] at h
      obtain ⟨h404, hcase⟩ := h
      have hnot : ¬(nf = true ∧ c = 404) := by
        rintro ⟨hnf, rfl⟩
        rcases h404 with h' | h'
        · exact absurd hnf (by simp [h'])
        · exact absurd rfl h'
      by_cases hm : c ∈ tl
      · simp [fetchAttempts, hr, hnot, hm]
      · have hr400 : 400 ≤ c ∧ c < 600 := by
          rcases hcase with h' | h'
          · exact absurd h' hm
          · exact ⟨h'.1, by simpa using h'.2⟩
        simp [fetchAttempts, hr, hnot, hm, hr400]

theorem fetchAttempts_all_retrying (resp : Nat → NetEvent) (tl : List Nat) (nf : Bool)
    (wk : Option (List Char)) (cache : CacheT) :
    ∀ (fuel i backoff : Nat),
      (∀ j < fuel, retryingEvent tl nf (resp (i + j)) = true) →
      fetchAttempts resp tl nf wk cache i fuel backoff =
        ⟨none, cache, fuel, (List.range fuel).map (fun j => backoff * 2 ^ j)⟩ := by
  intro fuel
  induction fuel with
  | zero => intro i backoff _; simp [fetchAttempts]
  | succ n ih =>
      intro i backoff h
      rw [fetchAttempts_retry_step resp tl nf wk cache i n backoff
        (by simpa using h 0 (Nat.succ_pos n))]
      rw [ih (i + 1) (backoff * 2) (fun j hj => by
        have := h (j + 1) (by omega)
        simpa [Nat.add_assoc, Nat.add_comm 1 j] using this)]
      have hfun : ((fun j => backoff * 2 ^ j) ∘ Nat.succ) = fun j => backoff * 2 * 2 ^ j := by
        funext j
        simp [Function.comp, pow_succ]
        ring
      have hmap : backoff :: (List.range n).map (fun j => backoff * 2 * 2 ^ j) =
          (List.range (n + 1)).map (fun j => backoff * 2 ^ j) := by
        rw [List.range_succ_eq_map, List.map_cons, List.map_map, hfun]
        simp
      simp [hmap]

theorem transient_retrying (e : NetEvent) (h : transientEvent transientW e = true) :
    retryingEvent transientW true e = true := by
  cases e with
  | netError => simp [transientEvent] at h
  | status c b =>
      simp only [transientEvent, decide_eq_true_eq, transientW, List.mem_cons,
        List.not_mem_nil, or_false] at h
      rcases h with rfl | rfl | rfl | rfl | rfl <;> simp [retryingEvent]

/-! ## Claim C1 -/

/-- Claim C1 counterexample: in aws_test.py, `fetch_url` has no 404 test,
so a persistent 404 is retried through the exception branch on all four
attempts (four `session.get` calls, backoff sleeps 2, 4, 8, 16) instead of
returning after one call with no retry, as the claim states for every
fetch call. -/
theorem fetch404Retried_testVariant :
    fetch_url_t (fun _ => .status 404 []) []
        "reviews".data "https://aws.amazon.com/marketplace/reviews/reviews-list/prodview-x".data
        true = ⟨none, [], 4, [2, 4, 8, 16]⟩ ∧
    ¬ (fetch_url_t (fun _ => .status 404 []) []
        "reviews".data "https://aws.amazon.com/marketplace/reviews/reviews-list/prodview-x".data
        true).netCalls = 1 := by
  decide

/-- Claim C1 (amended): on a cache miss, the fetchers of
aws_test2_wreviews.py and aws_scraper.py return the no-data sentinel
immediately on a 404 — one network call, no retry, no cache write, no
sleep — and when every attempt yields a status from the transient tuple
they make exactly MAX_RETRIES (5) network calls with strictly doubling
backoff multipliers 2, 4, 8, 16, 32 before returning the failed sentinel
`none` with the cache unchanged.  The fetcher of aws_test.py, however, has
no 404 case: a persistent 404 is retried through its exception branch on
all MAX_RETRIES (4) attempts. -/
theorem fetch404_immediate_and_transient_backoff
    (resp respT : Nat → NetEvent) (cache cacheT : CacheT) (kind url : List Char)
    (body bodyT : List Nat)
    (hmiss : cacheGet cache (cache_path_w kind url) = none)
    (hmissT : cacheGet cacheT (cache_path_t kind url) = none) :
    (resp 0 = .status 404 body →
       fetch_url_w resp cache kind url true = ⟨none, cache, 1, []⟩ ∧
       fetch_s resp = ⟨none, [], 1, []⟩) ∧
    ((∀ i < 5, transientEvent transientW (resp i) = true) →
       fetch_url_w resp cache kind url true = ⟨none, cache, 5, [2, 4, 8, 16, 32]⟩) ∧
    ((∀ i < 4, respT i = .status 404 bodyT) →
       fetch_url_t respT cacheT kind url true = ⟨none, cacheT, 4, [2, 4, 8, 16]⟩) := by
  refine ⟨fun h404 => ?_, fun htr => ?_, fun h404T => ?_⟩
  · constructor
    · simp [fetch_url_w, hmiss, fetchAttempts, h404]
    · simp [fetch_s, fetchAttempts, h404]
  · have := fetchAttempts_all_retrying resp transientW true (some (cache_path_w kind url))
      cache 5 0 2 (fun j hj => by rw [Nat.zero_add]; exact transient_retrying _ (htr j hj))
    simp only [fetch_url_w, hmiss]
    rw [this]
    norm_num [List.range_succ]
  · have h404R : ∀ j < 4, retryingEvent transientT false (respT (0 + j)) = true := by
      intro j hj
      rw [Nat.zero_add, h404T j hj]
      simp [retryingEvent, transientT]
    have := fetchAttempts_all_retrying respT transientT false (some (cache_path_t kind url))
      cacheT 4 0 2 h404R
    simp only [fetch_url_t, hmissT]
    rw [this]
    norm_num [List.range_succ]

/-- Witness for C1: a session that always answers 404, one that always
answers 429, and the aws_test fetcher against persistent 404s, all on an
empty cache. -/
theorem fetch404_immediate_and_transient_backoff_witness :
    (fetch_url_w (fun _ => .status 404 [51]) [] "product".data "u1".data true =
       ⟨none, [], 1, []⟩ ∧
     fetch_s (fun _ => .status 404 [51]) = ⟨none, [], 1, []⟩) ∧
    fetch_url_w (fun _ => .status 429 []) [] "product".data "u1".data true =
       ⟨none, [], 5, [2, 4, 8, 16, 32]⟩ ∧
    fetch_url_t (fun _ => .status 404 [51]) [] "product".data "u1".data true =
       ⟨none, [], 4, [2, 4, 8, 16]⟩ := by
  have h1 := fetch404_immediate_and_transient_backoff
    (fun _ => .status 404 [51]) (fun _ => .status 404 [51]) [] []
    "product".data "u1".data [51] [51] rfl rfl
  have h2 := fetch404_immediate_and_transient_backoff
    (fun _ => .status 429 []) (fun _ => .status 404 [51]) [] []
    "product".data "u1".data [] [51] rfl rfl
  exact ⟨h1.1 rfl, h2.2.1 (by decide), h1.2.2 (by decide)⟩

/-! ## Claim C2 -/

/-- Claim C2: with caching enabled and the cache key already present, both
caching fetchers return the cached bytes with zero network calls, zero
sleeps, and the cache unchanged — the rate limiter is bypassed entirely. -/
theorem cacheHit_no_network (respW respT : Nat → NetEvent) (cacheW cacheT : CacheT)
    (kind url : List Char) (b bT : List Nat)
    (hW : cacheGet cacheW (cache_path_w kind url) = some b)
    (hT : cacheGet cacheT (cache_path_t kind url) = some bT) :
    fetch_url_w respW cacheW kind url true = ⟨some b, cacheW, 0, []⟩ ∧
    fetch_url_t respT cacheT kind url true = ⟨some bT, cacheT, 0, []⟩ := by
  constructor
  · simp [fetch_url_w, hW]
  · simp [fetch_url_t, hT]

/-- Witness for C2: a one-entry cache holding the product page of a
prodview url; the session would answer 404, but is never consulted. -/
theorem cacheHit_no_network_witness :
    fetch_url_w (fun _ => .status 404 [])
        [(cache_path_w "product".data "https://aws.amazon.com/marketplace/pp/prodview-w1".data, [7])]
        "product".data "https://aws.amazon.com/marketplace/pp/prodview-w1".data true =
      ⟨some [7],
       [(cache_path_w "product".data "https://aws.amazon.com/marketplace/pp/prodview-w1".data, [7])],
       0, []⟩ ∧
    fetch_url_t (fun _ => .status 404 [])
        [(cache_path_t "product".data "https://aws.amazon.com/marketplace/pp/prodview-w1".data, [9])]
        "product".data "https://aws.amazon.com/marketplace/pp/prodview-w1".data true =
      ⟨some [9],
       [(cache_path_t "product".data "https://aws.amazon.com/marketplace/pp/prodview-w1".data, [9])],
       0, []⟩ :=
  cacheHit_no_network (fun _ => .status 404 []) (fun _ => .status 404 []) _ _
    "product".data "https://aws.amazon.com/marketplace/pp/prodview-w1".data [7] [9]
    (by simp [cacheGet]) (by simp [cacheGet])

/-! ## Claim C10 -/

theorem kindPath_ne (pre sep ext k1 k2 n1 n2 : List Char)
    (hl : k1.length = k2.length) (hk : k1 ≠ k2) :
    pre ++ k1 ++ sep ++ n1 ++ ext ≠ pre ++ k2 ++ sep ++ n2 ++ ext := by
  intro h
  simp only [List.append_assoc] at h
  have h1 : k1 ++ (sep ++ (n1 ++ ext)) = k2 ++ (sep ++ (n2 ++ ext)) :=
    (List.append_inj h rfl).2
  exact hk (List.append_inj h1 hl).1

/-- Claim C10: the page kind is embedded in the cache file name, so for
any two urls the `sitemap`, `product` and `reviews` cache paths are
pairwise distinct in both caching variants — fetches of different page
kinds can never read or overwrite each other's cache entries, even when
the urls share a prodview identifier or hash. -/
theorem cache_paths_distinct_kinds (u1 u2 : List Char) :
    (cache_path_w "sitemap".data u1 ≠ cache_path_w "product".data u2 ∧
     cache_path_w "sitemap".data u1 ≠ cache_path_w "reviews".data u2 ∧
     cache_path_w "product".data u1 ≠ cache_path_w "reviews".data u2) ∧
    (cache_path_t "sitemap".data u1 ≠ cache_path_t "product".data u2 ∧
     cache_path_t "sitemap".data u1 ≠ cache_path_t "reviews".data u2 ∧
     cache_path_t "product".data u1 ≠ cache_path_t "reviews".data u2) := by
  refine ⟨⟨?_, ?_, ?_⟩, ⟨?_, ?_, ?_⟩⟩ <;>
    · simp only [cache_path_w, cache_path_t]
      exact kindPath_ne _ _ _ _ _ _ _ (by decide) (by decide)

/-- Witness for C10 at two concrete urls (same prodview identifier). -/
theorem cache_paths_distinct_kinds_witness :
    (cache_path_w "sitemap".data "https://a/pp/prodview-z".data ≠
       cache_path_w "product".data "https://b/pp/prodview-z".data ∧
     cache_path_w "sitemap".data "https://a/pp/prodview-z".data ≠
       cache_path_w "reviews".data "https://b/pp/prodview-z".data ∧
     cache_path_w "product".data "https://a/pp/prodview-z".data ≠
       cache_path_w "reviews".data "https://b/pp/prodview-z".data) ∧
    (cache_path_t "sitemap".data "https://a/pp/prodview-z".data ≠
       cache_path_t "product".data "https://b/pp/prodview-z".data ∧
     cache_path_t "sitemap".data "https://a/pp/prodview-z".data ≠
       cache_path_t "reviews".data "https://b/pp/prodview-z".data ∧
     cache_path_t "product".data "https://a/pp/prodview-z".data ≠
       cache_path_t "reviews".data "https://b/pp/prodview-z".data) :=
  cache_paths_distinct_kinds "https://a/pp/prodview-z".data "https://b/pp/prodview-z".data

/-! ## Claim C5 -/

theorem ite_mem_vocab {c : Prop} [inst : Decidable c] {a b : String}
    (ha : a ∈ pricingVocab) (hb : b ∈ pricingVocab) : (if c then a else b) ∈ pricingVocab := by
  by_cases h : c
  · rwa [if_pos h]
  · rwa [if_neg h]

theorem if_false_bool {α : Sort _} (b : Bool) (h : b = false) (x y : α) :
    (if b = true then x else y) = y := by
  rw [h]
  simp

theorem or_false_left (a b : Bool) (h : (a || b) = false) : a = false := by
  cases a
  · rfl
  · simp at h

theorem or_false_right (a b : Bool) (h : (a || b) = false) : b = false := by
  cases b
  · rfl
  · simp at h

/-- Claim C5: pricing classification is total — every input text,
including the empty one, yields exactly one tag from the defined
vocabulary, and when no phrase condition holds the result is the default
`unknown`; being plain Lean functions, the classifiers never raise.
Stated for the two cited variants (aws_scraper.py and aws_test.py). -/
theorem pricing_classification_total :
    (∀ s : List Char, classify_pricing_s s ∈ pricingVocab) ∧
    (∀ s : List Char, classify_pricing_t s ∈ pricingVocab) ∧
    (∀ s : List Char, anyPricingPhrase_s s = false → classify_pricing_s s = "unknown") ∧
    (∀ s : List Char, anyPricingPhrase_t s = false → classify_pricing_t s = "unknown") ∧
    classify_pricing_s [] = "unknown" ∧ classify_pricing_t [] = "unknown" := by
  refine ⟨fun s => ?_, fun s => ?_, fun s h => ?_, fun s h => ?_, by decide, by decide⟩
  · rw [classify_pricing_s]
    dsimp only
    repeat' apply ite_mem_vocab
    all_goals decide
  · rw [classify_pricing_t]
    dsimp only
    repeat' apply ite_mem_vocab
    all_goals decide
  · rw [anyPricingPhrase_s] at h
    dsimp only at h
    have h7 := or_false_right _ _ h
    have hB := or_false_left _ _ h
    have h6 := or_false_right _ _ hB
    have hC := or_false_left _ _ hB
    have h5 := or_false_right _ _ hC
    have hD := or_false_left _ _ hC
    have h4 := or_false_right _ _ hD
    have hE := or_false_left _ _ hD
    have h3 := or_false_right _ _ hE
    have hF := or_false_left _ _ hE
    have h2 := or_false_right _ _ hF
    have h1 := or_false_left _ _ hF
    rw [classify_pricing_s]
    dsimp only
    rw [if_false_bool _ h1, if_false_bool _ h2, if_false_bool _ h3, if_false_bool _ h4,
      if_false_bool _ h5, if_false_bool _ h6, if_false_bool _ h7]
  · rw [anyPricingPhrase_t] at h
    dsimp only at h
    have h10 := or_false_right _ _ h
    have hB := or_false_left _ _ h
    have h9 := or_false_right _ _ hB
    have hC := or_false_left _ _ hB
    have h8 := or_false_right _ _ hC
    have hD := or_false_left _ _ hC
    have h7 := or_false_right _ _ hD
    have hE := or_false_left _ _ hD
    have h6 := or_false_right _ _ hE
    have hF := or_false_left _ _ hE
    have h5 := or_false_right _ _ hF
    have hG := or_false_left _ _ hF
    have h4 := or_false_right _ _ hG
    have hH := or_false_left _ _ hG
    have h3 := or_false_right _ _ hH
    have hI := or_false_left _ _ hH
    have h2 := or_false_right _ _ hI
    have h1 := or_false_left _ _ hI
    rw [classify_pricing_t]
    dsimp only
    rw [if_false_bool _ h1, if_false_bool _ h2, if_false_bool _ h3, if_false_bool _ h4,
      if_false_bool _ h5, if_false_bool _ h6, if_false_bool _ h7, if_false_bool _ h8,
      if_false_bool _ h9, if_false_bool _ h10]

/-- Witness for C5 at concrete texts. -/
theorem pricing_classification_total_witness :
    classify_pricing_s "Start your Free Trial".data ∈ pricingVocab ∧
    classify_pricing_t "Start your Free Trial".data ∈ pricingVocab ∧
    classify_pricing_s "hello world".data = "unknown" ∧
    classify_pricing_t "hello world".data = "unknown" :=
  ⟨pricing_classification_total.1 _, pricing_classification_total.2.1 _,
   pricing_classification_total.2.2.1 _ (by decide),
   pricing_classification_total.2.2.2.1 _ (by decide)⟩

/-! ## Claim C3 -/

/-- Claim C3 counterexample: aws_scraper.py's reviews extractor has no
minimum-length state.  A successfully fetched page whose text is the
2-character string `hi` (far below any threshold, and without the
not-supported marker) yields `reviews_supported = 1` with null counts,
not the `supported: null` the claim requires for short bodies. -/
theorem reviews_shortBody_supported_scraper :
    (extract_reviews_s (fun _ _ => .status 200 [104, 105]) (fun _ => "hi".data)
        "prodview-x".data).1 =
      { reviews_page_exists := 1, reviews_supported := some 1, avg_rating := none,
        ratings_count := none, aws_reviews_count := none, external_reviews_count := none } ∧
    (stripWs "hi".data).length < 50 ∧
    (some 1 : Option Nat) ≠ none := by
  decide

/-- Claim C3 (amended): the three degraded outcomes hold for
`fetch_reviews_info` in aws_test2_wreviews.py — fetch returned no data:
`{pageExists 0, supported 0, nulls}`; fetched but stripped text shorter
than 50: `{pageExists 1, supported null, nulls}`; fetched, long enough,
and carrying the `reviews are not supported` marker:
`{pageExists 1, supported 0, nulls}`.  aws_scraper.py's
`extract_reviews_from_reviews_page` implements only the no-data and
not-supported outcomes; it has no minimum-length state (see the
counterexample). -/
theorem reviews_degraded_states (web : List Char → Nat → NetEvent)
    (toText : List Nat → List Char) (cache : CacheT) (pid : List Char) :
    ((fetch_url_w (web (reviewsUrl pid)) cache "reviews".data (reviewsUrl pid) true).result =
        none →
      (fetch_reviews_info web toText cache pid true).info = reviewsNoPage) ∧
    (∀ body,
      (fetch_url_w (web (reviewsUrl pid)) cache "reviews".data (reviewsUrl pid) true).result =
          some body →
      body.isEmpty = false →
      (stripWs (toText body)).length < 50 →
      (fetch_reviews_info web toText cache pid true).info = reviewsShortBody) ∧
    (∀ body,
      (fetch_url_w (web (reviewsUrl pid)) cache "reviews".data (reviewsUrl pid) true).result =
          some body →
      body.isEmpty = false →
      ¬ (stripWs (toText body)).length < 50 →
      containsSub "reviews are not supported".data (lowerStr (pyNormText (toText body))) =
          true →
      (fetch_reviews_info web toText cache pid true).info = reviewsNotSupported) ∧
    ((fetch_s (web (reviewsUrl pid))).result = none →
      (extract_reviews_s web toText pid).1 = reviewsNoPage) ∧
    (∀ body, (fetch_s (web (reviewsUrl pid))).result = some body →
      body.isEmpty = false →
      containsSub "reviews are not supported".data (lowerStr (pyNormText (toText body))) =
          true →
      (extract_reviews_s web toText pid).1 = reviewsNotSupported) := by
  refine ⟨fun h => ?_, fun body h hb hlen => ?_, fun body h hb hlen hmark => ?_,
    fun h => ?_, fun body h hb hmark => ?_⟩
  · simp [fetch_reviews_info, h]
  · simp [fetch_reviews_info, h, hb, hlen]
  · simp [fetch_reviews_info, h, hb, hlen, parse_reviews_list_page, hmark]
  · simp [extract_reviews_s, h]
  · simp [extract_reviews_s, h, hb, hmark]

/-- Witness for C3 at concrete sessions and texts: a 404 session, a short
body, a long not-supported body (for both variants), and a no-data
scraper fetch. -/
theorem reviews_degraded_states_witness :
    (fetch_reviews_info (fun _ _ => .status 404 []) (fun _ => []) [] "prodview-x".data
        true).info = reviewsNoPage ∧
    (fetch_reviews_info (fun _ _ => .status 200 [1]) (fun _ => "tiny page".data) []
        "prodview-x".data true).info = reviewsShortBody ∧
    (fetch_reviews_info (fun _ _ => .status 200 [1])
        (fun _ => "We are sorry but reviews are not supported for this product listing page".data)
        [] "prodview-x".data true).info = reviewsNotSupported ∧
    (extract_reviews_s (fun _ _ => .netError) (fun _ => []) "prodview-x".data).1 =
        reviewsNoPage ∧
    (extract_reviews_s (fun _ _ => .status 200 [1])
        (fun _ => "We are sorry but reviews are not supported here".data)
        "prodview-x".data).1 = reviewsNotSupported :=
  ⟨(reviews_degraded_states (fun _ _ => .status 404 []) (fun _ => []) [] "prodview-x".data).1
      (by decide),
   (reviews_degraded_states (fun _ _ => .status 200 [1]) (fun _ => "tiny page".data) []
      "prodview-x".data).2.1 [1] (by decide) (by decide) (by decide),
   (reviews_degraded_states (fun _ _ => .status 200 [1])
      (fun _ => "We are sorry but reviews are not supported for this product listing page".data)
      [] "prodview-x".data).2.2.1 [1] (by decide) (by decide) (by decide) (by decide),
   (reviews_degraded_states (fun _ _ => .netError) (fun _ => []) [] "prodview-x".data).2.2.2.1
      (by decide),
   (reviews_degraded_states (fun _ _ => .status 200 [1])
      (fun _ => "We are sorry but reviews are not supported here".data)
      [] "prodview-x".data).2.2.2.2 [1] (by decide) (by decide) (by decide)⟩

/-! ## Claim C6 -/

/-- Claim C6 counterexample: on text containing both `12-month contract`
and `1 month contract`, both cited extractors return `12-month`, not the
claimed `1-month,12-month` — the hyphen pattern matches first and the
whitespace-variant pattern is then never consulted. -/
theorem contract_terms_both_phrases_value :
    (extract_pricing "Pricing: 12-month contract and 1 month contract options.".data).contract_terms =
      some "12-month".data ∧
    (parse_pricing_details "Pricing: 12-month contract and 1 month contract options.".data).contract_terms =
      some "12-month".data ∧
    (some "12-month".data : Option (List Char)) ≠ some "1-month,12-month".data := by
  decide

/-- Claim C6 (amended): the hyphenated pattern is tried first; when it
matches anything, the whitespace-variant pattern is never consulted, so
text containing both `12-month contract` and `1 month contract` yields
`12-month` alone.  Within one pattern the distinct captured numbers are
sorted as strings (Python `sorted(set(...))` on `str`), which is
lexicographic: captures `2` and `12` render as `12-month,2-month`, not in
numeric order. -/
theorem contract_terms_hyphen_priority (t : List Char) :
    (findallMonthContract true t = ["12".data] →
      (extract_pricing t).contract_terms = some "12-month".data ∧
      (parse_pricing_details t).contract_terms = some "12-month".data) ∧
    (findallMonthContract true t = ["2".data, "12".data] →
      (extract_pricing t).contract_terms = some "12-month,2-month".data ∧
      (parse_pricing_details t).contract_terms = some "12-month,2-month".data) := by
  constructor
  · intro h
    have hterm : contractTermsOf t = some "12-month".data := by
      rw [contractTermsOf, h]
      dsimp only
      rw [if_neg (by decide : ¬((sortedSetStrs ["12".data]).isEmpty = true))]
      decide
    exact ⟨by simp [extract_pricing, hterm], by simp [parse_pricing_details, hterm]⟩
  · intro h
    have hterm : contractTermsOf t = some "12-month,2-month".data := by
      rw [contractTermsOf, h]
      dsimp only
      rw [if_neg (by decide : ¬((sortedSetStrs ["2".data, "12".data]).isEmpty = true))]
      decide
    exact ⟨by simp [extract_pricing, hterm], by simp [parse_pricing_details, hterm]⟩

/-- Witness for C6: the two hypotheses hold at the counterexample text
and at a two-term text. -/
theorem contract_terms_hyphen_priority_witness :
    ((extract_pricing "Pricing: 12-month contract and 1 month contract options.".data).contract_terms =
       some "12-month".data ∧
     (parse_pricing_details "Pricing: 12-month contract and 1 month contract options.".data).contract_terms =
       some "12-month".data) ∧
    ((extract_pricing "a 2-month contract or a 12-month contract".data).contract_terms =
       some "12-month,2-month".data ∧
     (parse_pricing_details "a 2-month contract or a 12-month contract".data).contract_terms =
       some "12-month,2-month".data) :=
  ⟨(contract_terms_hyphen_priority _).1 (by decide),
   (contract_terms_hyphen_priority _).2 (by decide)⟩

/-! ## Claim C9 -/

theorem fetch_reviews_info_url (web : List Char → Nat → NetEvent)
    (toText : List Nat → List Char) (cache : CacheT) (pid : List Char) (useCache : Bool) :
    (fetch_reviews_info web toText cache pid useCache).url = reviewsUrl pid := by
  rw [fetch_reviews_info]
  dsimp only
  rcases (fetch_url_w (web (reviewsUrl pid)) cache "reviews".data (reviewsUrl pid)
      useCache).result with _ | body
  · rfl
  · dsimp only
    split
    · rfl
    · split <;> rfl

/-- Claim C9: in both pipelines, a produced row's review fields come
only from a reviews fetch keyed by the prodview identifier extracted
from the row's own url.  For aws_test2_wreviews.py's
`fetch_product_info`: the row's `prodview_id` is the url's own
identifier and its review fields equal the reviews fetch for exactly
that identifier, whose request url is the reviews-list template applied
to it.  For aws_scraper.py's main-loop row assembly: the row's
`prodview_id` field is the url's own identifier, its review fields equal
the scraper reviews extraction at that identifier when one exists and
the constant no-page record otherwise (no fetch at all), and that
extraction consults the session only at the reviews-list url of that
identifier — so review data keyed by a different product can never be
merged into a row. -/
theorem reviews_same_product_id (web : List Char → Nat → NetEvent)
    (toText : List Nat → List Char) (titleO : List Nat → Option (List Char))
    (sellerO catsO : List Nat → List (List Char)) (cache : CacheT)
    (url : List Char) (useCache : Bool) :
    (∀ row : Row,
      (fetch_product_info web toText titleO sellerO catsO cache url useCache).row =
        some row →
      prodview_id_from_url url = some row.prodview_id ∧
      row.url = url ∧
      ∃ body,
        (fetch_url_w (web url) cache "product".data url useCache).result = some body ∧
        row.reviews =
          (fetch_reviews_info web toText
            (fetch_url_w (web url) cache "product".data url useCache).cache
            row.prodview_id useCache).info ∧
        (fetch_reviews_info web toText
            (fetch_url_w (web url) cache "product".data url useCache).cache
            row.prodview_id useCache).url = reviewsUrl row.prodview_id) ∧
    (∀ row : ScraperRow,
      (scraper_process_url web toText titleO sellerO catsO url).1 = some row →
      row.url = url ∧
      row.prodview_id = prodview_id_from_url url ∧
      (∀ pid, prodview_id_from_url url = some pid →
        row.reviews = (extract_reviews_s web toText pid).1) ∧
      (prodview_id_from_url url = none → row.reviews = reviewsNoPage)) ∧
    (∀ (pid : List Char) (web' : List Char → Nat → NetEvent),
      (∀ i, web (reviewsUrl pid) i = web' (reviewsUrl pid) i) →
      extract_reviews_s web toText pid = extract_reviews_s web' toText pid) := by
  refine ⟨fun row h => ?_, fun row h => ?_, fun pid web' hw => ?_⟩
  · rw [fetch_product_info] at h
    dsimp only at h
    rcases hr : (fetch_url_w (web url) cache "product".data url useCache).result with _ | body
    · rw [hr] at h
      simp at h
    · rw [hr] at h
      dsimp only at h
      by_cases hb : body.isEmpty = true
      · rw [if_pos hb] at h
        simp at h
      · rw [if_neg hb] at h
        rcases hp : prodview_id_from_url url with _ | pid
        · rw [hp] at h
          simp at h
        · rw [hp] at h
          dsimp only at h
          simp only [Option.some.injEq] at h
          subst h
          exact ⟨rfl, rfl, body, rfl, rfl, fetch_reviews_info_url _ _ _ _ _⟩
  · rw [scraper_process_url] at h
    dsimp only at h
    rcases hr : (fetch_s (web url)).result with _ | body
    · rw [hr] at h
      simp at h
    · rw [hr] at h
      dsimp only at h
      by_cases hb : body.isEmpty = true
      · rw [if_pos hb] at h
        simp at h
      · rw [if_neg hb] at h
        rcases hp : prodview_id_from_url url with _ | pid
        · rw [hp] at h
          dsimp only at h
          simp only [Option.some.injEq] at h
          subst h
          refine ⟨rfl, rfl, fun pid hpid => ?_, fun _ => rfl⟩
          exact Option.noConfusion hpid
        · rw [hp] at h
          dsimp only at h
          simp only [Option.some.injEq] at h
          subst h
          refine ⟨rfl, rfl, fun pid' hpid' => ?_, fun hnone => ?_⟩
          · simp only [Option.some.injEq] at hpid'
            subst hpid'
            rfl
          · exact Option.noConfusion hnone
  · have hfun : web (reviewsUrl pid) = web' (reviewsUrl pid) := funext hw
    rw [extract_reviews_s, extract_reviews_s, hfun]

/-- Witness for C9: a session serving the product page and answering
404 elsewhere.  The wreviews row carries the url's own prodview id and
that fetch's (no-page) review fields; the scraper row does too, a
no-prodview url yields a scraper row with a null id and the constant
no-page reviews, and the scraper reviews extraction is unchanged under
a session altered everywhere except the reviews-list url. -/
theorem reviews_same_product_id_witness :
    (prodview_id_from_url "https://aws.amazon.com/marketplace/pp/prodview-abc".data =
      some "prodview-abc".data ∧
     ({ url := "https://aws.amazon.com/marketplace/pp/prodview-abc".data
        prodview_id := "prodview-abc".data
        product_name := none
        seller_name := none
        category_primary := none
        categories_all := none
        delivery_method := none
        pricing := { pricing_type := "unknown", contract_terms := none, price_visible := 0,
                     price_min_usd := none, price_max_usd := none }
        reviews := reviewsNoPage } : Row).url =
      "https://aws.amazon.com/marketplace/pp/prodview-abc".data ∧
     ∃ body,
       (fetch_url_w
           ((fun u (_ : Nat) =>
               if u = "https://aws.amazon.com/marketplace/pp/prodview-abc".data then
                 NetEvent.status 200 [7]
               else NetEvent.status 404 [])
             "https://aws.amazon.com/marketplace/pp/prodview-abc".data)
           [] "product".data "https://aws.amazon.com/marketplace/pp/prodview-abc".data
           true).result = some body ∧
       ({ url := "https://aws.amazon.com/marketplace/pp/prodview-abc".data
          prodview_id := "prodview-abc".data
          product_name := none
          seller_name := none
          category_primary := none
          categories_all := none
          delivery_method := none
          pricing := { pricing_type := "unknown", contract_terms := none, price_visible := 0,
                       price_min_usd := none, price_max_usd := none }
          reviews := reviewsNoPage } : Row).reviews =
         (fetch_reviews_info
           (fun u (_ : Nat) =>
             if u = "https://aws.amazon.com/marketplace/pp/prodview-abc".data then
               NetEvent.status 200 [7]
             else NetEvent.status 404 [])
           (fun _ => [])
           (fetch_url_w
             ((fun u (_ : Nat) =>
                 if u = "https://aws.amazon.com/marketplace/pp/prodview-abc".data then
                   NetEvent.status 200 [7]
                 else NetEvent.status 404 [])
               "https://aws.amazon.com/marketplace/pp/prodview-abc".data)
             [] "product".data "https://aws.amazon.com/marketplace/pp/prodview-abc".data
             true).cache
           "prodview-abc".data true).info ∧
       (fetch_reviews_info
           (fun u (_ : Nat) =>
             if u = "https://aws.amazon.com/marketplace/pp/prodview-abc".data then
               NetEvent.status 200 [7]
             else NetEvent.status 404 [])
           (fun _ => [])
           (fetch_url_w
             ((fun u (_ : Nat) =>
                 if u = "https://aws.amazon.com/marketplace/pp/prodview-abc".data then
                   NetEvent.status 200 [7]
                 else NetEvent.status 404 [])
               "https://aws.amazon.com/marketplace/pp/prodview-abc".data)
             [] "product".data "https://aws.amazon.com/marketplace/pp/prodview-abc".data
             true).cache
           "prodview-abc".data true).url =
         reviewsUrl "prodview-abc".data) ∧
    (({ url := "https://aws.amazon.com/marketplace/pp/prodview-abc".data
        prodview_id := some "prodview-abc".data
        product_name := none
        seller_name := none
        category_primary := none
        categories_all := none
        delivery_method := none
        pricing := { pricing_type := "unknown", contract_terms := none, price_visible := 0,
                     price_min_usd := none, price_max_usd := none }
        reviews := reviewsNoPage } : ScraperRow).prodview_id =
      prodview_id_from_url "https://aws.amazon.com/marketplace/pp/prodview-abc".data ∧
     ({ url := "https://aws.amazon.com/marketplace/pp/prodview-abc".data
        prodview_id := some "prodview-abc".data
        product_name := none
        seller_name := none
        category_primary := none
        categories_all := none
        delivery_method := none
        pricing := { pricing_type := "unknown", contract_terms := none, price_visible := 0,
                     price_min_usd := none, price_max_usd := none }
        reviews := reviewsNoPage } : ScraperRow).reviews =
      (extract_reviews_s
        (fun u (_ : Nat) =>
          if u = "https://aws.amazon.com/marketplace/pp/prodview-abc".data then
            NetEvent.status 200 [7]
          else NetEvent.status 404 [])
        (fun _ => []) "prodview-abc".data).1) ∧
    (({ url := "https://aws.amazon.com/about".data
        prodview_id := none
        product_name := none
        seller_name := none
        category_primary := none
        categories_all := none
        delivery_method := none
        pricing := { pricing_type := "unknown", contract_terms := none, price_visible := 0,
                     price_min_usd := none, price_max_usd := none }
        reviews := reviewsNoPage } : ScraperRow).prodview_id =
      prodview_id_from_url "https://aws.amazon.com/about".data ∧
     ({ url := "https://aws.amazon.com/about".data
        prodview_id := none
        product_name := none
        seller_name := none
        category_primary := none
        categories_all := none
        delivery_method := none
        pricing := { pricing_type := "unknown", contract_terms := none, price_visible := 0,
                     price_min_usd := none, price_max_usd := none }
        reviews := reviewsNoPage } : ScraperRow).reviews = reviewsNoPage) ∧
    extract_reviews_s
        (fun u (_ : Nat) =>
          if u = "https://aws.amazon.com/marketplace/pp/prodview-abc".data then
            NetEvent.status 200 [7]
          else NetEvent.status 404 [])
        (fun _ => []) "prodview-abc".data =
      extract_reviews_s
        (fun u (i : Nat) =>
          if u = reviewsUrl "prodview-abc".data then
            (fun v (_ : Nat) =>
              if v = "https://aws.amazon.com/marketplace/pp/prodview-abc".data then
                NetEvent.status 200 [7]
              else NetEvent.status 404 []) u i
          else NetEvent.netError)
        (fun _ => []) "prodview-abc".data := by
  refine ⟨?_, ?_, ?_, ?_⟩
  · exact (reviews_same_product_id
      (fun u (_ : Nat) =>
        if u = "https://aws.amazon.com/marketplace/pp/prodview-abc".data then
          NetEvent.status 200 [7]
        else NetEvent.status 404 [])
      (fun _ => []) (fun _ => none) (fun _ => []) (fun _ => []) []
      "https://aws.amazon.com/marketplace/pp/prodview-abc".data true).1
      { url := "https://aws.amazon.com/marketplace/pp/prodview-abc".data
        prodview_id := "prodview-abc".data
        product_name := none
        seller_name := none
        category_primary := none
        categories_all := none
        delivery_method := none
        pricing := { pricing_type := "unknown", contract_terms := none, price_visible := 0,
                     price_min_usd := none, price_max_usd := none }
        reviews := reviewsNoPage }
      (by decide)
  · have h := (reviews_same_product_id
      (fun u (_ : Nat) =>
        if u = "https://aws.amazon.com/marketplace/pp/prodview-abc".data then
          NetEvent.status 200 [7]
        else NetEvent.status 404 [])
      (fun _ => []) (fun _ => none) (fun _ => []) (fun _ => []) []
      "https://aws.amazon.com/marketplace/pp/prodview-abc".data true).2.1
      { url := "https://aws.amazon.com/marketplace/pp/prodview-abc".data
        prodview_id := some "prodview-abc".data
        product_name := none
        seller_name := none
        category_primary := none
        categories_all := none
        delivery_method := none
        pricing := { pricing_type := "unknown", contract_terms := none, price_visible := 0,
                     price_min_usd := none, price_max_usd := none }
        reviews := reviewsNoPage }
      (by decide)
    exact ⟨h.2.1, h.2.2.1 "prodview-abc".data (by decide)⟩
  · have h := (reviews_same_product_id (fun _ _ => NetEvent.status 200 [7])
      (fun _ => []) (fun _ => none) (fun _ => []) (fun _ => []) []
      "https://aws.amazon.com/about".data true).2.1
      { url := "https://aws.amazon.com/about".data
        prodview_id := none
        product_name := none
        seller_name := none
        category_primary := none
        categories_all := none
        delivery_method := none
        pricing := { pricing_type := "unknown", contract_terms := none, price_visible := 0,
                     price_min_usd := none, price_max_usd := none }
        reviews := reviewsNoPage }
      (by decide)
    exact ⟨h.2.1, h.2.2.2 (by decide)⟩
  · exact (reviews_same_product_id
      (fun u (_ : Nat) =>
        if u = "https://aws.amazon.com/marketplace/pp/prodview-abc".data then
          NetEvent.status 200 [7]
        else NetEvent.status 404 [])
      (fun _ => []) (fun _ => none) (fun _ => []) (fun _ => []) []
      "https://aws.amazon.com/marketplace/pp/prodview-abc".data true).2.2
      "prodview-abc".data _
      (fun i => (if_pos rfl).symm)

/-! ## Claim C8 -/

/-- Claim C8 counterexample: a second run over the unchanged state is not
free of network calls.  One sampled product url whose page 404s leaves no
cache entry and no output row, so the second run — with the identical
sitemap sample, cache and output table the first run left behind —
re-fetches it: the output table is unchanged but one network call is
made, not zero. -/
theorem resume_second_run_refetches_failed :
    (let u := "https://aws.amazon.com/marketplace/pp/prodview-gone".data
     let web : List Char → Nat → NetEvent := fun _ _ => .status 404 []
     let toText : List Nat → List Char := fun _ => []
     let titleO : List Nat → Option (List Char) := fun _ => none
     let anchO : List Nat → List (List Char) := fun _ => []
     let run1 := runScrape web toText titleO anchO anchO [] ⟨[], [], 0⟩ [u]
     let run2 := runScrape web toText titleO anchO anchO (doneIdsOf run1.results)
        ⟨run1.results, run1.cache, 0⟩ [u]
     run1.results = [] ∧ run1.cache = [] ∧ run1.netCalls = 1 ∧
     run2.results = run1.results ∧ run2.cache = run1.cache ∧
     run2.netCalls = 1 ∧ ¬ run2.netCalls = 0) := by
  decide

/-- Claim C8 (amended): every product url whose identifier is already in
the loaded output table is skipped without any fetch; consequently, when
every sampled url's identifier is present (all first-run fetches
succeeded), a second run leaves the output table, the cache and the
network-call count exactly unchanged.  Urls whose first-run fetch failed
are not in the table and are re-fetched with network calls on the second
run (see the counterexample). -/
theorem resume_skips_done_ids (web : List Char → Nat → NetEvent)
    (toText : List Nat → List Char) (titleO : List Nat → Option (List Char))
    (sellerO catsO : List Nat → List (List Char)) (done : List (List Char)) :
    ∀ (urls : List (List Char)) (st : PipeState),
      (∀ u ∈ urls, ∃ pid, prodview_id_from_url u = some pid ∧ pid ∈ done) →
      runScrape web toText titleO sellerO catsO done st urls = st := by
  intro urls
  induction urls with
  | nil => intro st _; rfl
  | cons u rest ih =>
      intro st h
      obtain ⟨pid, h1, h2⟩ := h u (List.mem_cons_self u rest)
      have hstep : scrapeStep web toText titleO sellerO catsO done st u = st := by
        rw [scrapeStep, h1]
        dsimp only
        rw [if_pos h2]
      rw [runScrape, List.foldl_cons]
      rw [show List.foldl (scrapeStep web toText titleO sellerO catsO done)
            (scrapeStep web toText titleO sellerO catsO done st u) rest =
          runScrape web toText titleO sellerO catsO done
            (scrapeStep web toText titleO sellerO catsO done st u) rest from rfl]
      rw [hstep]
      exact ih st (fun v hv => h v (List.mem_cons_of_mem u hv))

/-- Witness for C8: a one-url sample whose identifier is already in the
output table; the run is the identity on the state. -/
theorem resume_skips_done_ids_witness :
    runScrape (fun _ _ => .netError) (fun _ => []) (fun _ => none) (fun _ => [])
        (fun _ => []) ["prodview-a".data]
        ⟨[], [(cache_path_w "product".data "u".data, [1])], 0⟩
        ["https://aws.amazon.com/marketplace/pp/prodview-a".data] =
      ⟨[], [(cache_path_w "product".data "u".data, [1])], 0⟩ :=
  resume_skips_done_ids (fun _ _ => .netError) (fun _ => []) (fun _ => none) (fun _ => [])
    (fun _ => []) ["prodview-a".data]
    ["https://aws.amazon.com/marketplace/pp/prodview-a".data]
    ⟨[], [(cache_path_w "product".data "u".data, [1])], 0⟩
    (by
      intro v hv
      simp only [List.mem_singleton] at hv
      subst hv
      exact ⟨"prodview-a".data, by decide, by decide⟩)

/-! ## Claim C4 -/

theorem beginsWith_append_self (p l : List Char) : beginsWith p (p ++ l) = true := by
  induction p with
  | nil => rfl
  | cons c cs ih => simp [beginsWith, ih]

theorem containsSub_nil (l : List Char) : containsSub [] l = true := by
  cases l with
  | nil => rfl
  | cons c cs => simp [containsSub, beginsWith]

theorem containsSub_append_self (pat a r : List Char) :
    containsSub pat (a ++ (pat ++ r)) = true := by
  induction a with
  | nil =>
      rw [List.nil_append]
      cases pat with
      | nil => exact containsSub_nil _
      | cons p ps =>
          rw [List.cons_append, containsSub, Bool.or_eq_true]
          exact Or.inl (beginsWith_append_self (p :: ps) r)
  | cons x xs ih => simp [containsSub, ih]

theorem takeWhile_append_seg (p : Char → Bool) (s post : List Char)
    (hs : ∀ c ∈ s, p c = true)
    (hp : (match post with | [] => true | c :: _ => !p c) = true) :
    (s ++ post).takeWhile p = s := by
  induction s with
  | nil =>
      cases post with
      | nil => rfl
      | cons c cs =>
          simp only [Bool.not_eq_true'] at hp
          simp [List.takeWhile_cons, hp]
  | cons c cs ih =>
      have hc := hs c (List.mem_cons_self c cs)
      simp [List.takeWhile_cons, hc, ih (fun d hd => hs d (List.mem_cons_of_mem c hd))]

/-- The slug search over `a ++ (pat ++ (seg ++ post))` finds exactly
`seg` when no earlier position matches the literal pattern, `seg` is a
non-empty run of `[^/?]` characters, and `post` starts with a delimiter
(or is empty). -/
theorem reSearchSeg_spec (pat : List Char) (hpat : pat ≠ []) :
    ∀ (a seg post : List Char),
      (∀ j < a.length, beginsWith pat ((a ++ (pat ++ (seg ++ post))).drop j) = false) →
      seg ≠ [] → (∀ c ∈ seg, segChar c = true) → headSegBad post = true →
      reSearchSeg pat (a ++ (pat ++ (seg ++ post))) = some seg := by
  intro a
  induction a with
  | nil =>
      intro seg post _ hseg hsegc hpost
      rw [List.nil_append]
      obtain ⟨p, ps, rfl⟩ : ∃ p ps, pat = p :: ps := by
        cases pat with
        | nil => exact absurd rfl hpat
        | cons p ps => exact ⟨p, ps, rfl⟩
      rw [List.cons_append, reSearchSeg]
      rw [show p :: (ps ++ (seg ++ post)) = (p :: ps) ++ (seg ++ post) from rfl]
      rw [beginsWith_append_self]
      simp only [if_true]
      rw [List.drop_left]
      rw [takeWhile_append_seg segChar seg post hsegc (by
        cases post with
        | nil => rfl
        | cons c cs => simpa [headSegBad] using hpost)]
      cases seg with
      | nil => exact absurd rfl hseg
      | cons c cs => rfl
  | cons x xs ih =>
      intro seg post hno hseg hsegc hpost
      rw [List.cons_append, reSearchSeg]
      have h0 := hno 0 (Nat.succ_pos xs.length)
      rw [List.drop_zero, List.cons_append] at h0
      rw [h0]
      simp only [Bool.false_eq_true, if_false]
      exact ih seg post
        (fun j hj => by
          have := hno (j + 1) (by simpa using Nat.succ_lt_succ hj)
          rwa [List.cons_append, List.drop_succ_cons] at this)
        hseg hsegc hpost

/-- Claim C4: every url containing the product-detail path prefix
classifies as `product`; when the prefix occurs (first) followed by a
non-empty `[^/?]` segment, `extract_slug` returns exactly that segment;
and a url containing none of the three path prefixes classifies as
`other` with a null slug. -/
theorem url_classify_and_slug :
    (∀ url : List Char,
      containsSub "/marketplace/pp/".data url = true → classify_url url = "product") ∧
    (∀ a seg post : List Char,
      (∀ j < a.length,
        beginsWith "/marketplace/pp/".data
          ((a ++ ("/marketplace/pp/".data ++ (seg ++ post))).drop j) = false) →
      seg ≠ [] → (∀ c ∈ seg, segChar c = true) → headSegBad post = true →
      classify_url (a ++ ("/marketplace/pp/".data ++ (seg ++ post))) = "product" ∧
      extract_slug (a ++ ("/marketplace/pp/".data ++ (seg ++ post))) "product" = some seg) ∧
    (∀ url : List Char,
      containsSub "/marketplace/pp/".data url = false →
      containsSub "/marketplace/seller-profile/".data url = false →
      containsSub "/marketplace/b/".data url = false →
      classify_url url = "other" ∧ extract_slug url (classify_url url) = none) := by
  refine ⟨fun url h => ?_, fun a seg post hno hseg hsegc hpost => ⟨?_, ?_⟩,
    fun url h1 h2 h3 => ?_⟩
  · rw [classify_url, if_pos h]
  · rw [classify_url, if_pos (by
      have := containsSub_append_self "/marketplace/pp/".data a (seg ++ post)
      exact this)]
  · rw [extract_slug, if_pos rfl]
    exact reSearchSeg_spec "/marketplace/pp/".data (by decide) a seg post hno hseg hsegc hpost
  · have hc : classify_url url = "other" := by
      rw [classify_url, if_neg (by simp [h1]), if_neg (by simp [h2]), if_neg (by simp [h3])]
    refine ⟨hc, ?_⟩
    rw [hc, extract_slug]
    rfl

/-- Witness for C4 at a concrete product url, slug and query suffix, and
at a concrete unrelated url. -/
theorem url_classify_and_slug_witness :
    (classify_url "https://aws.amazon.com/marketplace/pp/prodview-abc123".data = "product") ∧
    (classify_url ("https://aws.amazon.com".data ++
        ("/marketplace/pp/".data ++ ("prodview-abc123".data ++ "?ref=sr".data))) = "product" ∧
     extract_slug ("https://aws.amazon.com".data ++
        ("/marketplace/pp/".data ++ ("prodview-abc123".data ++ "?ref=sr".data))) "product" =
       some "prodview-abc123".data) ∧
    (classify_url "https://aws.amazon.com/about/".data = "other" ∧
     extract_slug "https://aws.amazon.com/about/".data
       (classify_url "https://aws.amazon.com/about/".data) = none) :=
  ⟨url_classify_and_slug.1 _ (by decide),
   url_classify_and_slug.2.1 "https://aws.amazon.com".data "prodview-abc123".data "?ref=sr".data
     (by decide) (by decide) (by decide) (by decide),
   url_classify_and_slug.2.2 _ (by decide) (by decide) (by decide)⟩

/-! ## Claim C7 -/

theorem foldl_min_mem (l : List ℚ) (v : ℚ) : l.foldl min v ∈ v :: l := by
  induction l generalizing v with
  | nil => simp
  | cons x xs ih =>
      rw [List.foldl_cons]
      rcases List.mem_cons.mp (ih (min v x)) with h | h
      · rcases min_choice v x with hm | hm
        · rw [h, hm]; exact List.mem_cons_self _ _
        · rw [h, hm]; exact List.mem_cons_of_mem _ (List.mem_cons_self _ _)
      · exact List.mem_cons_of_mem _ (List.mem_cons_of_mem _ h)

theorem foldl_min_le (l : List ℚ) (v : ℚ) : ∀ x ∈ v :: l, l.foldl min v ≤ x := by
  induction l generalizing v with
  | nil =>
      intro x hx
      rw [List.mem_singleton] at hx
      rw [hx]
      exact le_refl _
  | cons y ys ih =>
      intro x hx
      rw [List.foldl_cons]
      have hhead : ys.foldl min (min v y) ≤ min v y :=
        ih (min v y) (min v y) (List.mem_cons_self _ _)
      rcases List.mem_cons.mp hx with h1 | h2
      · rw [h1]
        exact le_trans hhead (min_le_left _ _)
      · rcases List.mem_cons.mp h2 with h3 | h4
        · rw [h3]
          exact le_trans hhead (min_le_right _ _)
        · exact ih (min v y) x (List.mem_cons_of_mem _ h4)

theorem foldl_max_mem (l : List ℚ) (v : ℚ) : l.foldl max v ∈ v :: l := by
  induction l generalizing v with
  | nil => simp
  | cons x xs ih =>
      rw [List.foldl_cons]
      rcases List.mem_cons.mp (ih (max v x)) with h | h
      · rcases max_choice v x with hm | hm
        · rw [h, hm]; exact List.mem_cons_self _ _
        · rw [h, hm]; exact List.mem_cons_of_mem _ (List.mem_cons_self _ _)
      · exact List.mem_cons_of_mem _ (List.mem_cons_of_mem _ h)

theorem foldl_max_ge (l : List ℚ) (v : ℚ) : ∀ x ∈ v :: l, x ≤ l.foldl max v := by
  induction l generalizing v with
  | nil =>
      intro x hx
      rw [List.mem_singleton] at hx
      rw [hx]
      exact le_refl _
  | cons y ys ih =>
      intro x hx
      rw [List.foldl_cons]
      have hhead : max v y ≤ ys.foldl max (max v y) :=
        ih (max v y) (max v y) (List.mem_cons_self _ _)
      rcases List.mem_cons.mp hx with h1 | h2
      · rw [h1]
        exact le_trans (le_max_left _ _) hhead
      · rcases List.mem_cons.mp h2 with h3 | h4
        · rw [h3]
          exact le_trans (le_max_right _ _) hhead
        · exact ih (max v y) x (List.mem_cons_of_mem _ h4)

theorem priceScanGo_skip (r : List Char) :
    ∀ (a : List Char) (n : Nat), (∀ c ∈ a, ¬ c = '$') →
      priceScanGo (a.length + n) (a ++ r) = priceScanGo n r := by
  intro a
  induction a with
  | nil => intro n _; rw [List.nil_append, List.length_nil, Nat.zero_add]
  | cons c cs ih =>
      intro n h
      have hc : ¬ c = '$' := h c (List.mem_cons_self c cs)
      rw [List.cons_append]
      rw [show (c :: cs).length + n = (cs.length + n) + 1 from by
        rw [List.length_cons]; omega]
      rw [priceScanGo, if_neg hc]
      exact ih n (fun d hd => h d (List.mem_cons_of_mem c hd))

theorem priceScanGo_noDollar (c : List Char) :
    ∀ f, (∀ x ∈ c, ¬ x = '$') → priceScanGo f c = [] := by
  induction c with
  | nil => intro f _; cases f <;> rfl
  | cons x xs ih =>
      intro f h
      cases f with
      | zero => rfl
      | succ m =>
          rw [priceScanGo, if_neg (h x (List.mem_cons_self x xs))]
          exact ih m (fun d hd => h d (List.mem_cons_of_mem x hd))

theorem priceMatch_tok1 (r : List Char) :
    priceMatch ("1,234.56".data ++ r) = some ("1,234.56".data, r) := rfl

theorem priceMatch_tok2 (r : List Char) :
    priceMatch ("10.00".data ++ r) = some ("10.00".data, r) := rfl

theorem noDollar_forall {l : List Char} (h : noDollar l = true) : ∀ c ∈ l, ¬ c = '$' := by
  simpa [noDollar, List.all_eq_true] using h

theorem priceScan_two_tokens (a b c : List Char)
    (ha : noDollar a = true) (hb : noDollar b = true) (hc : noDollar c = true) :
    priceScan (a ++ ("$1,234.56".data ++ (b ++ ("$10.00".data ++ c)))) =
      ["1,234.56".data, "10.00".data] := by
  rw [priceScan]
  rw [show (a ++ ("$1,234.56".data ++ (b ++ ("$10.00".data ++ c)))).length =
      a.length + (9 + (b.length + (6 + c.length))) from by
    simp [List.length_append]
    omega]
  rw [priceScanGo_skip _ a _ (noDollar_forall ha)]
  rw [show ("$1,234.56".data ++ (b ++ ("$10.00".data ++ c))) =
      '$' :: ("1,234.56".data ++ (b ++ ("$10.00".data ++ c))) from rfl]
  rw [show 9 + (b.length + (6 + c.length)) = (8 + (b.length + (6 + c.length))) + 1 from by
    omega]
  rw [priceScanGo, if_pos rfl, priceMatch_tok1]
  dsimp only
  rw [show 8 + (b.length + (6 + c.length)) = b.length + (14 + c.length) from by omega]
  rw [priceScanGo_skip _ b _ (noDollar_forall hb)]
  rw [show ("$10.00".data ++ c) = '$' :: ("10.00".data ++ c) from rfl]
  rw [show 14 + c.length = (13 + c.length) + 1 from by omega]
  rw [priceScanGo, if_pos rfl, priceMatch_tok2]
  dsimp only
  rw [priceScanGo_noDollar c _ (noDollar_forall hc)]

theorem parseFloatQ_tok1 : parseFloatQ "1,234.56".data = some (123456 / 100) := by
  have h : parseFloatQ "1,234.56".data =
      some ((natOfDigits "1234".data : ℚ) +
        (natOfDigits "56".data : ℚ) / (10 : ℚ) ^ ("56".data).length) := rfl
  rw [h, show natOfDigits "1234".data = 1234 from rfl, show natOfDigits "56".data = 56 from rfl]
  simp only [Option.some.injEq]
  norm_num

theorem parseFloatQ_tok2 : parseFloatQ "10.00".data = some 10 := by
  have h : parseFloatQ "10.00".data =
      some ((natOfDigits "10".data : ℚ) +
        (natOfDigits "00".data : ℚ) / (10 : ℚ) ^ ("00".data).length) := rfl
  rw [h, show natOfDigits "10".data = 10 from rfl, show natOfDigits "00".data = 0 from rfl]
  simp only [Option.some.injEq]
  norm_num

/-- Claim C7: `priceVisible` is 1 exactly when at least one dollar token
parses, `priceMin`/`priceMax` are null on no values and otherwise an
element of the parsed values that bounds them below / above; the wreviews
variant computes the same three fields; and for any text built around the
tokens `$1,234.56` and `$10.00` (no other dollar signs), the extraction
returns min 10, max 1234.56, visible 1. -/
theorem price_extraction_spec :
    (∀ t : List Char,
      ((extract_pricing t).price_visible = 1 ↔ priceVals t ≠ []) ∧
      ((extract_pricing t).price_visible = 0 ∨ (extract_pricing t).price_visible = 1) ∧
      (priceVals t = [] →
        (extract_pricing t).price_min_usd = none ∧ (extract_pricing t).price_max_usd = none) ∧
      (∀ m, (extract_pricing t).price_min_usd = some m →
        m ∈ priceVals t ∧ ∀ x ∈ priceVals t, m ≤ x) ∧
      (∀ M, (extract_pricing t).price_max_usd = some M →
        M ∈ priceVals t ∧ ∀ x ∈ priceVals t, x ≤ M) ∧
      (parse_pricing_details t).price_visible = (extract_pricing t).price_visible ∧
      (parse_pricing_details t).price_min_usd = (extract_pricing t).price_min_usd ∧
      (parse_pricing_details t).price_max_usd = (extract_pricing t).price_max_usd) ∧
    (∀ a b c : List Char, noDollar a = true → noDollar b = true → noDollar c = true →
      priceVals (a ++ ("$1,234.56".data ++ (b ++ ("$10.00".data ++ c)))) =
        [123456 / 100, 10] ∧
      (extract_pricing (a ++ ("$1,234.56".data ++ (b ++ ("$10.00".data ++ c))))).price_visible
        = 1 ∧
      (extract_pricing (a ++ ("$1,234.56".data ++ (b ++ ("$10.00".data ++ c))))).price_min_usd
        = some 10 ∧
      (extract_pricing (a ++ ("$1,234.56".data ++ (b ++ ("$10.00".data ++ c))))).price_max_usd
        = some (123456 / 100) ∧
      (parse_pricing_details
          (a ++ ("$1,234.56".data ++ (b ++ ("$10.00".data ++ c))))).price_min_usd = some 10 ∧
      (parse_pricing_details
          (a ++ ("$1,234.56".data ++ (b ++ ("$10.00".data ++ c))))).price_max_usd
        = some (123456 / 100)) := by
  have hfields : ∀ t : List Char,
      (extract_pricing t).price_visible = (if (priceVals t).isEmpty then 0 else 1) ∧
      (extract_pricing t).price_min_usd =
        (match priceVals t with | [] => none | v :: r => some (r.foldl min v)) ∧
      (extract_pricing t).price_max_usd =
        (match priceVals t with | [] => none | v :: r => some (r.foldl max v)) ∧
      (parse_pricing_details t).price_visible = (extract_pricing t).price_visible ∧
      (parse_pricing_details t).price_min_usd = (extract_pricing t).price_min_usd ∧
      (parse_pricing_details t).price_max_usd = (extract_pricing t).price_max_usd :=
    fun t => ⟨rfl, rfl, rfl, rfl, rfl, rfl⟩
  constructor
  · intro t
    obtain ⟨hv, hmin, hmax, hpv, hpmin, hpmax⟩ := hfields t
    refine ⟨?_, ?_, ?_, ?_, ?_, hpv, hpmin, hpmax⟩
    · rw [hv]
      rcases heq : priceVals t with _ | ⟨v, r⟩
      · simp [heq]
      · simp
    · rw [hv]
      rcases priceVals t with _ | ⟨v, r⟩
      · simp
      · simp
    · intro hnil
      rw [hmin, hmax, hnil]
      exact ⟨rfl, rfl⟩
    · intro m hm
      rw [hmin] at hm
      rcases heq : priceVals t with _ | ⟨v, r⟩
      · rw [heq] at hm; simp at hm
      · rw [heq] at hm
        simp only [Option.some.injEq] at hm
        subst hm
        exact ⟨foldl_min_mem r v, foldl_min_le r v⟩
    · intro M hM
      rw [hmax] at hM
      rcases heq : priceVals t with _ | ⟨v, r⟩
      · rw [heq] at hM; simp at hM
      · rw [heq] at hM
        simp only [Option.some.injEq] at hM
        subst hM
        exact ⟨foldl_max_mem r v, foldl_max_ge r v⟩
  · intro a b c ha hb hc
    have hvals : priceVals (a ++ ("$1,234.56".data ++ (b ++ ("$10.00".data ++ c)))) =
        [123456 / 100, 10] := by
      rw [priceVals, priceScan_two_tokens a b c ha hb hc]
      rw [List.filterMap_cons, parseFloatQ_tok1]
      dsimp only
      rw [List.filterMap_cons, parseFloatQ_tok2]
      dsimp only
      rw [List.filterMap_nil]
    obtain ⟨hv, hmin, hmax, hpv, hpmin, hpmax⟩ :=
      hfields (a ++ ("$1,234.56".data ++ (b ++ ("$10.00".data ++ c))))
    refine ⟨hvals, ?_, ?_, ?_, ?_, ?_⟩
    · rw [hv, hvals]
      rfl
    · rw [hmin, hvals]
      dsimp only
      rw [List.foldl_cons, List.foldl_nil]
      norm_num [min_def]
    · rw [hmax, hvals]
      dsimp only
      rw [List.foldl_cons, List.foldl_nil]
      norm_num [max_def]
    · rw [hpmin, hmin, hvals]
      dsimp only
      rw [List.foldl_cons, List.foldl_nil]
      norm_num [min_def]
    · rw [hpmax, hmax, hvals]
      dsimp only
      rw [List.foldl_cons, List.foldl_nil]
      norm_num [max_def]

/-- Witness for C7: the general part at a concrete text with two prices,
and the scenario part at concrete surroundings. -/
theorem price_extraction_spec_witness :
    ((extract_pricing "fee: $5.00 or $8.00".data).price_visible = 1 ↔
      priceVals "fee: $5.00 or $8.00".data ≠ []) ∧
    (priceVals ("See ".data ++ ("$1,234.56".data ++ (" or ".data ++ ("$10.00".data ++ " now".data)))) =
      [123456 / 100, 10] ∧
     (extract_pricing
        ("See ".data ++ ("$1,234.56".data ++ (" or ".data ++ ("$10.00".data ++ " now".data))))).price_min_usd
       = some 10 ∧
     (extract_pricing
        ("See ".data ++ ("$1,234.56".data ++ (" or ".data ++ ("$10.00".data ++ " now".data))))).price_max_usd
       = some (123456 / 100)) :=
  ⟨(price_extraction_spec.1 "fee: $5.00 or $8.00".data).1,
   ((price_extraction_spec.2 "See ".data " or ".data " now".data
      (by decide) (by decide) (by decide)).1),
   ((price_extraction_spec.2 "See ".data " or ".data " now".data
      (by decide) (by decide) (by decide)).2.2.1),
   ((price_extraction_spec.2 "See ".data " or ".data " now".data
      (by decide) (by decide) (by decide)).2.2.2.1)⟩
